import Mathlib

/-!
# keycloak-operator chart generator: extraction and rendering

A shallow embedding of `internal/chart/parse.go` (with the types of
`internal/chart/types.go`), of the `indent` helper of `internal/chart/generate.go` and of
the four repeated-block templates of `internal/chart/templates.go`, followed by theorems
about them.

Conventions of the embedding.

* A Go `string` is modelled by a Lean `String`, that is, by the characters its UTF-8
  bytes encode (byte sequences that are not valid UTF-8 are outside the model).  Every
  byte the program searches for (`:`, `-`, the ASCII rewrite prefixes) is ASCII, so it
  never occurs inside a multi-byte sequence and cutting the string at such a byte is the
  same as cutting the character list at that character.
* `interface{}` values produced by the decoder are modelled by `Value`.
* `map[string]interface{}` is an association list read with `List.lookup`; a missing key
  reads as `none`.  The assertions `v, _ := x.(T)` are `asMap`, `asString` and `asSeq`,
  which give the zero value of `T` when the assertion fails.
* A Go `(T, error)` result is `Except String T`, the string being the error message.
* What the program takes from libraries outside the repository (the YAML encoder, the
  float-to-int conversion of the platform, the Unicode tables behind `%q`) is a field of
  `GoLib`, over which every definition below is parametric.
-/

namespace Chart

/-! ## Strings -/

/-- Go `strings.HasPrefix`. -/
def hasPrefix (s pre : String) : Bool :=
  pre.data.isPrefixOf s.data

/-- Go `strings.TrimPrefix`: `s` without the leading `pre`, or `s` itself. -/
def trimPrefix (s pre : String) : String :=
  if hasPrefix s pre then ⟨s.data.drop pre.data.length⟩ else s

/-- Go `strings.LastIndex` for a one-character separator, on the character list: the
position of the last occurrence of `c`, or `-1`. -/
def lastIndex (c : Char) : List Char → Int
  | [] => -1
  | x :: xs =>
    let r := lastIndex c xs
    if r ≠ -1 then r + 1 else if x = c then 0 else -1

/-- Go `strings.TrimRight(s, "\n")`. -/
def trimRightNewlines (s : String) : String :=
  ⟨s.data.rdropWhile (fun ch => ch == '\n')⟩

/-- Source `splitImage` (parse.go:225). -/
def splitImage (ref : String) : String × String :=
  let i := lastIndex ':' ref.data
  if i ≠ -1 then
    (⟨ref.data.take i.toNat⟩, ⟨ref.data.drop (i.toNat + 1)⟩)
  else
    (ref, "")

/-- The rule table of `deriveSuffix` (parse.go:104): `(prefix, replacement)`. -/
def replacements : List (String × String) :=
  [("keycloak-operator-", ""),
   ("keycloakrealmimportcontroller-", "realmimport-"),
   ("keycloakcontroller-", "keycloak-")]

/-- The loop of `deriveSuffix` over a rule table: the first rule whose prefix matches
rewrites the name, and a leading `-` of the rewritten name is trimmed. -/
def deriveSuffixWith : List (String × String) → String → String
  | [], name => name
  | r :: rs, name =>
    if hasPrefix name r.1 then
      let suffix := r.2 ++ trimPrefix name r.1
      trimPrefix suffix "-"
    else
      deriveSuffixWith rs name

/-- Source `deriveSuffix` (parse.go:103). -/
def deriveSuffix (name : String) : String :=
  deriveSuffixWith replacements name

/-! ## Decoded documents -/

/-- A value held in an `interface{}` after YAML decoding.  `null` is the nil interface;
`float64` carries the IEEE-754 bit pattern; `other` stands for any dynamic type the
program never asserts (timestamps, maps with non-string keys). -/
inductive Value where
  | null
  | bool (b : Bool)
  | int (n : Int)
  | int64 (n : Int)
  | uint64 (n : Nat)
  | float64 (bits : Nat)
  | str (s : String)
  | seq (xs : List Value)
  | map (kvs : List (String × Value))
  | other (tag : Nat)

/-- A `map[string]interface{}`; the nil map is `[]`. -/
abbrev Object := List (String × Value)

/-- The index expression `m[key]`; `none` when the key is absent. -/
def mapGet (m : Object) (key : String) : Option Value :=
  List.lookup key m

/-- The assertion `v, _ := x.(map[string]interface{})`. -/
def asMap : Option Value → Object
  | some (Value.map kvs) => kvs
  | _ => []

/-- The assertion `v, _ := x.(string)`. -/
def asString : Option Value → String
  | some (Value.str s) => s
  | _ => ""

/-- The assertion `v, _ := x.([]interface{})`. -/
def asSeq : Option Value → List Value
  | some (Value.seq xs) => xs
  | _ => []

/-- What the program uses from outside the repository. -/
structure GoLib where
  /-- The `yaml.v3` encoder with indent 2: the text written to the buffer, or the
  encoder's error message. -/
  yamlEncode : Value → Except String String
  /-- The conversion `int(n)` of a `float64`, given by its bit pattern. -/
  float64ToInt : Nat → Int
  /-- The tables of `strconv.IsPrint` for runes above `0xFF`. -/
  isPrintTable : Char → Bool

/-- Source `rawResource` (parse.go:12). -/
structure rawResource where
  Kind : String
  Name : String
  Raw : Object

/-! ## The model (types.go) -/

structure ResourceList where
  CPU : String := ""
  Memory : String := ""
  deriving DecidableEq

structure ResourceRequirements where
  Requests : ResourceList := {}
  Limits : ResourceList := {}
  deriving DecidableEq

structure ProbeSpec where
  Path : String := ""
  FailureThreshold : Int := 0
  InitialDelaySeconds : Int := 0
  PeriodSeconds : Int := 0
  SuccessThreshold : Int := 0
  TimeoutSeconds : Int := 0
  deriving DecidableEq

structure ProbeConfig where
  Liveness : ProbeSpec := {}
  Readiness : ProbeSpec := {}
  Startup : ProbeSpec := {}
  deriving DecidableEq

structure StaticEnvVar where
  Name : String
  Value : String
  deriving DecidableEq

structure DeploymentData where
  Replicas : Int := 0
  ContainerName : String := ""
  ContainerPort : Int := 0
  Resources : ResourceRequirements := {}
  Probes : ProbeConfig := {}
  ExtraEnv : List StaticEnvVar := []
  deriving DecidableEq

structure ServiceData where
  Type_ : String := ""
  Port : Int := 0
  deriving DecidableEq

structure RBACRole where
  OriginalName : String
  Suffix : String
  RulesYAML : String
  deriving DecidableEq

structure RBACBinding where
  OriginalName : String
  Suffix : String
  RoleRefKind : String
  RoleRefName : String
  RoleSuffix : String
  IsBuiltinRole : Bool
  deriving DecidableEq

structure RBACData where
  ClusterRoles : List RBACRole := []
  ClusterRoleBindings : List RBACBinding := []
  Roles : List RBACRole := []
  RoleBindings : List RBACBinding := []
  deriving DecidableEq

/-- Source `Upstream` (types.go:4); the default value is Go's zero value `Upstream{}`. -/
structure Upstream where
  AppVersion : String := ""
  OperatorImage : String := ""
  KeycloakImage : String := ""
  Deployment : DeploymentData := {}
  Service : ServiceData := {}
  RBAC : RBACData := {}
  deriving DecidableEq

/-- The `managedRoles` map of `buildUpstream` (original name to suffix).  An assignment
`managedRoles[k] = v` puts `(k, v)` in front, and a read takes the first entry for the
key, so a later assignment to the same key wins as it does in the Go map. -/
abbrev ManagedRoles := List (String × String)

/-! ## Error messages: the `%q` verb -/

/-- The double quote character. -/
def dquote : Char := Char.ofNat 34

/-- The backslash character. -/
def backslash : Char := Char.ofNat 92

/-- The digit table `lowerhex` of `strconv`. -/
def lowerhex (n : Nat) : Char :=
  "0123456789abcdef".data.getD (n % 16) '0'

/-- Go `strconv.IsPrint`: explicit for Latin-1, by table above it. -/
def isPrint (L : GoLib) (r : Char) : Bool :=
  if r.toNat ≤ 0xFF then
    if 0x20 ≤ r.toNat ∧ r.toNat ≤ 0x7E then true
    else if 0xA1 ≤ r.toNat then r.toNat != 0xAD
    else false
  else L.isPrintTable r

/-- Go `strconv.appendEscapedRune` for the quote `"` with `ASCIIonly` and `graphicOnly`
off, as `%q` uses it.  A `Char` is always a valid rune, so the `!utf8.ValidRune` case
does not arise. -/
def appendEscapedRune (L : GoLib) (r : Char) : List Char :=
  if r = dquote ∨ r = backslash then [backslash, r]
  else if isPrint L r then [r]
  else if r.toNat = 7 then [backslash, 'a']
  else if r.toNat = 8 then [backslash, 'b']
  else if r.toNat = 12 then [backslash, 'f']
  else if r.toNat = 10 then [backslash, 'n']
  else if r.toNat = 13 then [backslash, 'r']
  else if r.toNat = 9 then [backslash, 't']
  else if r.toNat = 11 then [backslash, 'v']
  else if r.toNat < 0x20 ∨ r.toNat = 0x7F then
    [backslash, 'x', lowerhex (r.toNat / 16), lowerhex r.toNat]
  else if r.toNat < 0x10000 then
    backslash :: 'u' :: (List.map (fun k => lowerhex (r.toNat / 16 ^ k)) [3, 2, 1, 0])
  else
    backslash :: 'U' ::
      (List.map (fun k => lowerhex (r.toNat / 16 ^ k)) [7, 6, 5, 4, 3, 2, 1, 0])

/-- Go `strconv.Quote`, which is what `%q` prints for a string operand. -/
def quote (L : GoLib) (s : String) : String :=
  ⟨dquote :: ((s.data.map (appendEscapedRune L)).flatten ++ [dquote])⟩

/-! ## Field readers (parse.go:232-289) -/

/-- Source `intFromMap` (parse.go:232). -/
def intFromMap (L : GoLib) (m : Object) (key : String) : Int :=
  match mapGet m key with
  | some (Value.int n) => n
  | some (Value.float64 bits) => L.float64ToInt bits
  | some (Value.int64 n) => n
  | _ => 0

/-- Source `stringFromMap` (parse.go:244). -/
def stringFromMap (m : Object) (key : String) : String :=
  asString (mapGet m key)

/-- Source `parseResources` (parse.go:249). -/
def parseResources (r : Object) : ResourceRequirements :=
  let rr : ResourceRequirements := {}
  let rr :=
    match mapGet r "requests" with
    | some (Value.map requests) =>
      { rr with Requests := { CPU := stringFromMap requests "cpu",
                              Memory := stringFromMap requests "memory" } }
    | _ => rr
  match mapGet r "limits" with
  | some (Value.map limits) =>
    { rr with Limits := { CPU := stringFromMap limits "cpu",
                          Memory := stringFromMap limits "memory" } }
  | _ => rr

/-- Source `parseProbe` (parse.go:262). -/
def parseProbe (L : GoLib) (container : Object) (key : String) : ProbeSpec :=
  match mapGet container key with
  | some (Value.map probe) =>
    let httpGet := asMap (mapGet probe "httpGet")
    let path := asString (mapGet httpGet "path")
    { Path := path
      FailureThreshold := intFromMap L probe "failureThreshold"
      InitialDelaySeconds := intFromMap L probe "initialDelaySeconds"
      PeriodSeconds := intFromMap L probe "periodSeconds"
      SuccessThreshold := intFromMap L probe "successThreshold"
      TimeoutSeconds := intFromMap L probe "timeoutSeconds" }
  | _ => {}

/-- Source `marshalYAML` (parse.go:281). -/
def marshalYAML (L : GoLib) (v : Value) : Except String String :=
  match L.yamlEncode v with
  | .error e => .error e
  | .ok buf => .ok (trimRightNewlines buf)

/-! ## RBAC records -/

/-- Source `parseRBACRole` (parse.go:118). -/
def parseRBACRole (L : GoLib) (r : rawResource) : Except String RBACRole :=
  match mapGet r.Raw "rules" with
  | none => .error "no rules found"
  | some rules =>
    match marshalYAML L rules with
    | .error e => .error ("marshaling rules: " ++ e)
    | .ok rulesYAML =>
      .ok { OriginalName := r.Name, Suffix := deriveSuffix r.Name, RulesYAML := rulesYAML }

/-- Source `parseRBACBinding` (parse.go:136).  The two-valued map read
`roleSuffix, isManaged := managedRoles[roleRefName]` is `found`. -/
def parseRBACBinding (r : rawResource) (managedRoles : ManagedRoles) : RBACBinding :=
  let roleRef := asMap (mapGet r.Raw "roleRef")
  let roleRefKind := asString (mapGet roleRef "kind")
  let roleRefName := asString (mapGet roleRef "name")
  let found := List.lookup roleRefName managedRoles
  { OriginalName := r.Name
    Suffix := deriveSuffix r.Name
    RoleRefKind := roleRefKind
    RoleRefName := roleRefName
    RoleSuffix := found.getD ""
    IsBuiltinRole := !found.isSome }

/-! ## Deployment and Service -/

/-- One iteration of the environment loop of `parseDeployment` (parse.go:192-208). -/
def envStep (u : Upstream) (e : Value) : Upstream :=
  let env := asMap (some e)
  let name := asString (mapGet env "name")
  if name = "KUBERNETES_NAMESPACE" then
    u
  else if name = "RELATED_IMAGE_KEYCLOAK" then
    let value := asString (mapGet env "value")
    { u with KeycloakImage := (splitImage value).1 }
  else
    let value := asString (mapGet env "value")
    { u with Deployment :=
        { u.Deployment with
          ExtraEnv := u.Deployment.ExtraEnv ++ [{ Name := name, Value := value }] } }

/-- Source `(*Upstream).parseDeployment` (parse.go:153): the receiver is threaded through
as `u`, and the updated receiver is returned when the error is nil. -/
def parseDeployment (L : GoLib) (u : Upstream) (r : rawResource) : Except String Upstream :=
  let spec := asMap (mapGet r.Raw "spec")
  let u := { u with Deployment := { u.Deployment with Replicas := intFromMap L spec "replicas" } }
  let tmpl := asMap (mapGet spec "template")
  let podSpec := asMap (mapGet tmpl "spec")
  let containers := asSeq (mapGet podSpec "containers")
  if containers.length = 0 then
    .error "no containers found"
  else
    let container := asMap containers.head?
    -- Image
    let image := asString (mapGet container "image")
    let u := { u with OperatorImage := (splitImage image).1, AppVersion := (splitImage image).2 }
    -- Container metadata
    let u := { u with Deployment :=
                { u.Deployment with ContainerName := asString (mapGet container "name") } }
    -- Ports
    let ports := asSeq (mapGet container "ports")
    let u :=
      if ports.length > 0 then
        let port := asMap ports.head?
        { u with Deployment :=
            { u.Deployment with ContainerPort := intFromMap L port "containerPort" } }
      else u
    -- Resources
    let u :=
      match mapGet container "resources" with
      | some (Value.map resources) =>
        { u with Deployment := { u.Deployment with Resources := parseResources resources } }
      | _ => u
    -- Probes
    let u := { u with Deployment :=
                { u.Deployment with
                  Probes := { Liveness := parseProbe L container "livenessProbe"
                              Readiness := parseProbe L container "readinessProbe"
                              Startup := parseProbe L container "startupProbe" } } }
    -- Env vars
    let envList := asSeq (mapGet container "env")
    .ok (envList.foldl envStep u)

/-- Source `(*Upstream).parseService` (parse.go:214). -/
def parseService (L : GoLib) (u : Upstream) (r : rawResource) : Upstream :=
  let spec := asMap (mapGet r.Raw "spec")
  let u := { u with Service := { u.Service with Type_ := asString (mapGet spec "type") } }
  let ports := asSeq (mapGet spec "ports")
  if ports.length > 0 then
    let port := asMap ports.head?
    { u with Service := { u.Service with Port := intFromMap L port "port" } }
  else u

/-! ## Building the model -/

/-- The first loop of `buildUpstream` (parse.go:57-83), from the state `(u, managedRoles)`
reached so far; an error return leaves the loop. -/
def firstPass (L : GoLib) :
    List rawResource → Upstream → ManagedRoles → Except String (Upstream × ManagedRoles)
  | [], u, managedRoles => .ok (u, managedRoles)
  | r :: rest, u, managedRoles =>
    if r.Kind = "ClusterRole" then
      match parseRBACRole L r with
      | .error err => .error ("parsing ClusterRole " ++ quote L r.Name ++ ": " ++ err)
      | .ok role =>
        firstPass L rest
          { u with RBAC := { u.RBAC with ClusterRoles := u.RBAC.ClusterRoles ++ [role] } }
          ((r.Name, role.Suffix) :: managedRoles)
    else if r.Kind = "Role" then
      match parseRBACRole L r with
      | .error err => .error ("parsing Role " ++ quote L r.Name ++ ": " ++ err)
      | .ok role =>
        firstPass L rest
          { u with RBAC := { u.RBAC with Roles := u.RBAC.Roles ++ [role] } }
          ((r.Name, role.Suffix) :: managedRoles)
    else if r.Kind = "Deployment" then
      match parseDeployment L u r with
      | .error err => .error ("parsing Deployment " ++ quote L r.Name ++ ": " ++ err)
      | .ok u1 => firstPass L rest u1 managedRoles
    else if r.Kind = "Service" then
      firstPass L rest (parseService L u r) managedRoles
    else
      firstPass L rest u managedRoles

/-- The second loop of `buildUpstream` (parse.go:86-93). -/
def secondPass (managedRoles : ManagedRoles) : List rawResource → Upstream → Upstream
  | [], u => u
  | r :: rest, u =>
    if r.Kind = "ClusterRoleBinding" then
      secondPass managedRoles rest
        { u with RBAC :=
            { u.RBAC with
              ClusterRoleBindings :=
                u.RBAC.ClusterRoleBindings ++ [parseRBACBinding r managedRoles] } }
    else if r.Kind = "RoleBinding" then
      secondPass managedRoles rest
        { u with RBAC :=
            { u.RBAC with
              RoleBindings := u.RBAC.RoleBindings ++ [parseRBACBinding r managedRoles] } }
    else
      secondPass managedRoles rest u

/-- Source `buildUpstream` (parse.go:52). -/
def buildUpstream (L : GoLib) (resources : List rawResource) : Except String Upstream :=
  match firstPass L resources {} [] with
  | .error err => .error err
  | .ok (u, managedRoles) =>
    let u := secondPass managedRoles resources u
    if u.AppVersion = "" then
      .error "no Deployment found or image tag missing"
    else
      .ok u

/-- A library instance on which the definitions can be evaluated: the encoder prints every
value as `[]` followed by a newline, floats convert to `0`, and no rune above `0xFF` is
printable. -/
def sampleLib : GoLib where
  yamlEncode := fun _ => .ok "[]\n"
  float64ToInt := fun _ => 0
  isPrintTable := fun _ => false

/-! ## The indent helper (generate.go:41-52) -/

/-- Go `strings.Split(s, sep)` for a one-character separator, on the character list: the
pieces between the separators, one more than there are separators. -/
def splitChars (sep : Char) : List Char → List (List Char)
  | [] => [[]]
  | c :: cs =>
    if c = sep then
      [] :: splitChars sep cs
    else
      match splitChars sep cs with
      | [] => [[c]]
      | l :: ls => (c :: l) :: ls

/-- Go `strings.Split` for a one-character separator. -/
def split (s : String) (sep : Char) : List String :=
  (splitChars sep s.data).map String.mk

/-- Go `strings.Join`. -/
def join : List String → String → String
  | [], _ => ""
  | [a], _ => a
  | a :: b :: rest, sep => a ++ sep ++ join (b :: rest) sep

/-- Go `strings.Repeat` for a count that is not negative (a negative count panics). -/
def repeatString (s : String) : Nat → String
  | 0 => ""
  | n + 1 => s ++ repeatString s n

/-- The `indent` function of the template function map (generate.go:42), for a column
count `n` that is not negative. -/
def indent (n : Nat) (s : String) : String :=
  let pad := repeatString " " n
  let lines := split s '\n'
  let lines := lines.map (fun line => if line ≠ "" then pad ++ line else line)
  join lines "\n"

/-! ## The repeated-block templates (templates.go:294-377)

`renderFile` parses a template with the delimiters `[[` and `]]` and executes it on the
model.  Each template below is the function from the model to the text that execution
writes, read off the template as follows.

* The text between two actions is written as it stands in the template (in the string
  literals `\x7b` and `\x7d` are the braces of the Helm expressions, which are plain text
  to this engine).
* An action that opens with `[[-` trims the white space at the end of the text before it:
  that text is wrapped in `trimRightSpace`.
* `[[ range $i, $x := LIST ]] BODY [[ end ]]` is `rangeFrom BODY 0 LIST`, the bodies
  of the entries one after the other, each with its index.
* `[[ if $i ]]` holds for an index other than 0, `[[ if $b.IsBuiltinRole ]]` for `true`,
  and `eq $b.RoleRefKind "Role"` is equality of strings.
* A field action `[[ $x.Field ]]` writes the string as it is.
-/

/-- The white space a trim marker removes: space, tab, carriage return, newline. -/
def isTrimSpace (c : Char) : Bool :=
  c == ' ' || c == '\t' || c == '\r' || c == '\n'

/-- The effect of a following `[[-` on a template text: trailing white space is cut. -/
def trimRightSpace (s : String) : String :=
  ⟨s.data.rdropWhile isTrimSpace⟩

/-- The action `range $i, $x := LIST`, from index `i` on. -/
def rangeFrom {α : Type} (body : Nat → α → String) : Nat → List α → String
  | _, [] => ""
  | i, x :: xs => body i x ++ rangeFrom body (i + 1) xs

/-- Source `clusterRoleTmpl` (templates.go:294), executed on `u`. -/
def renderClusterRoleTmpl (u : Upstream) : String :=
  trimRightSpace "" ++
  rangeFrom (fun i role =>
      trimRightSpace "\n" ++
      (if i ≠ 0 then trimRightSpace "\n---\n" else "") ++
      "\napiVersion: rbac.authorization.k8s.io/v1\nkind: ClusterRole\nmetadata:\n  name: \x7b\x7b include \"keycloak-operator.fullname\" . \x7d\x7d-" ++
      role.Suffix ++
      "\n  labels:\n    \x7b\x7b- include \"keycloak-operator.labels\" . | nindent 4 \x7d\x7d\nrules:\n" ++
      indent 2 role.RulesYAML ++
      trimRightSpace "\n")
    0 u.RBAC.ClusterRoles ++
  "\n"

/-- Source `clusterRoleBindingTmpl` (templates.go:309), executed on `u`. -/
def renderClusterRoleBindingTmpl (u : Upstream) : String :=
  trimRightSpace "" ++
  rangeFrom (fun i binding =>
      trimRightSpace "\n" ++
      (if i ≠ 0 then trimRightSpace "\n---\n" else "") ++
      "\napiVersion: rbac.authorization.k8s.io/v1\nkind: ClusterRoleBinding\nmetadata:\n  name: \x7b\x7b include \"keycloak-operator.fullname\" . \x7d\x7d-" ++
      binding.Suffix ++
      "\n  labels:\n    \x7b\x7b- include \"keycloak-operator.labels\" . | nindent 4 \x7d\x7d\nroleRef:\n  kind: " ++
      binding.RoleRefKind ++
      trimRightSpace "\n  apiGroup: rbac.authorization.k8s.io\n" ++
      (if binding.IsBuiltinRole then
        "\n  name: " ++ binding.RoleRefName ++ trimRightSpace "\n"
      else
        "\n  name: \x7b\x7b include \"keycloak-operator.fullname\" . \x7d\x7d-" ++
        binding.RoleSuffix ++ trimRightSpace "\n") ++
      trimRightSpace "\nsubjects:\n  - kind: ServiceAccount\n    name: \x7b\x7b include \"keycloak-operator.serviceAccountName\" . \x7d\x7d\n    namespace: \x7b\x7b .Release.Namespace \x7d\x7d\n")
    0 u.RBAC.ClusterRoleBindings ++
  "\n"

/-- Source `roleTmpl` (templates.go:334), executed on `u`. -/
def renderRoleTmpl (u : Upstream) : String :=
  trimRightSpace "" ++
  rangeFrom (fun i role =>
      trimRightSpace "\n" ++
      (if i ≠ 0 then trimRightSpace "\n---\n" else "") ++
      "\napiVersion: rbac.authorization.k8s.io/v1\nkind: Role\nmetadata:\n  name: \x7b\x7b include \"keycloak-operator.fullname\" . \x7d\x7d-" ++
      role.Suffix ++
      "\n  labels:\n    \x7b\x7b- include \"keycloak-operator.labels\" . | nindent 4 \x7d\x7d\nrules:\n" ++
      indent 2 role.RulesYAML ++
      trimRightSpace "\n")
    0 u.RBAC.Roles ++
  "\n"

/-- Source `roleBindingTmpl` (templates.go:349), executed on `u`. -/
def renderRoleBindingTmpl (u : Upstream) : String :=
  trimRightSpace "" ++
  rangeFrom (fun i binding =>
      trimRightSpace "\n" ++
      (if i ≠ 0 then trimRightSpace "\n---\n" else "") ++
      "\napiVersion: rbac.authorization.k8s.io/v1\nkind: RoleBinding\nmetadata:\n  name: \x7b\x7b include \"keycloak-operator.fullname\" . \x7d\x7d-" ++
      binding.Suffix ++
      trimRightSpace "\n  labels:\n    \x7b\x7b- include \"keycloak-operator.labels\" . | nindent 4 \x7d\x7d\nroleRef:\n" ++
      (if binding.IsBuiltinRole then
        "\n  kind: " ++ binding.RoleRefKind ++
        "\n  apiGroup: rbac.authorization.k8s.io\n  name: " ++ binding.RoleRefName ++
        trimRightSpace "\n"
      else if binding.RoleRefKind = "Role" then
        "\n  kind: Role\n  apiGroup: rbac.authorization.k8s.io\n  name: \x7b\x7b include \"keycloak-operator.fullname\" . \x7d\x7d-" ++
        binding.RoleSuffix ++ trimRightSpace "\n"
      else
        "\n  kind: ClusterRole\n  apiGroup: rbac.authorization.k8s.io\n  name: \x7b\x7b include \"keycloak-operator.fullname\" . \x7d\x7d-" ++
        binding.RoleSuffix ++ trimRightSpace "\n") ++
      trimRightSpace "\nsubjects:\n  - kind: ServiceAccount\n    name: \x7b\x7b include \"keycloak-operator.serviceAccountName\" . \x7d\x7d\n")
    0 u.RBAC.RoleBindings ++
  "\n"

/-! ## Readers used to state the theorems -/

/-- The `(OriginalName, Suffix)` pair of a role. -/
def roleKey (ro : RBACRole) : String × String := (ro.OriginalName, ro.Suffix)

/-- The `managedRoles` entry the first loop stores for a role record. -/
def roleEntry (r : rawResource) : String × String := (r.Name, deriveSuffix r.Name)

/-- The containers list `parseDeployment` reads from a Deployment record. -/
def deploymentContainers (r : rawResource) : List Value :=
  asSeq (mapGet (asMap (mapGet (asMap (mapGet (asMap (mapGet r.Raw "spec")) "template")) "spec"))
    "containers")

/-- The image string of the first container of a Deployment record. -/
def deploymentImage (r : rawResource) : String :=
  asString (mapGet (asMap (deploymentContainers r).head?) "image")

/-- The role-reference name `parseRBACBinding` reads from a binding record. -/
def bindingRoleRefName (r : rawResource) : String :=
  asString (mapGet (asMap (mapGet r.Raw "roleRef")) "name")

/-- The role-reference kind `parseRBACBinding` reads from a binding record. -/
def bindingRoleRefKind (r : rawResource) : String :=
  asString (mapGet (asMap (mapGet r.Raw "roleRef")) "kind")

/-- A name that `%q` prints unchanged between its quotes: every character is printable
ASCII and is neither the double quote nor the backslash. -/
def plainName (s : String) : Prop :=
  ∀ c ∈ s.data, 0x20 ≤ c.toNat ∧ c.toNat ≤ 0x7E ∧ c ≠ dquote ∧ c ≠ backslash

/-- Whether a name begins with one of the three prefixes of the rule table. -/
def beginsWithRewritePrefix (name : String) : Bool :=
  hasPrefix name "keycloak-operator-" ||
  hasPrefix name "keycloakrealmimportcontroller-" ||
  hasPrefix name "keycloakcontroller-"

/-- The `env` list `parseDeployment` reads from the first container of a Deployment
record. -/
def deploymentEnv (r : rawResource) : List Value :=
  asSeq (mapGet (asMap (deploymentContainers r).head?) "env")

/-- The name the environment loop reads from an entry. -/
def envName (e : Value) : String :=
  asString (mapGet (asMap (some e)) "name")

/-- The value the environment loop reads from an entry. -/
def envValue (e : Value) : String :=
  asString (mapGet (asMap (some e)) "value")

/-- Whether the environment loop keeps an entry as a literal pair. -/
def envKept (e : Value) : Bool :=
  envName e ≠ "KUBERNETES_NAMESPACE" ∧ envName e ≠ "RELATED_IMAGE_KEYCLOAK"

/-- The metadata name line of a chart resource: the Helm fullname expression, a `-`, and
the suffix. -/
def fullnameLine (suffix : String) : String :=
  "  name: \x7b\x7b include \"keycloak-operator.fullname\" . \x7d\x7d-" ++ suffix

/-- The document `clusterRoleTmpl` writes for one role, without the newline before it. -/
def clusterRoleBlock (role : RBACRole) : String :=
  "apiVersion: rbac.authorization.k8s.io/v1\nkind: ClusterRole\nmetadata:\n" ++
  fullnameLine role.Suffix ++
  "\n  labels:\n    \x7b\x7b- include \"keycloak-operator.labels\" . | nindent 4 \x7d\x7d\nrules:\n" ++
  indent 2 role.RulesYAML

/-- The document `roleTmpl` writes for one role, without the newline before it. -/
def roleBlock (role : RBACRole) : String :=
  "apiVersion: rbac.authorization.k8s.io/v1\nkind: Role\nmetadata:\n" ++
  fullnameLine role.Suffix ++
  "\n  labels:\n    \x7b\x7b- include \"keycloak-operator.labels\" . | nindent 4 \x7d\x7d\nrules:\n" ++
  indent 2 role.RulesYAML

/-- The roleRef name line of a binding. -/
def roleRefNameLine (b : RBACBinding) : String :=
  if b.IsBuiltinRole then "  name: " ++ b.RoleRefName else fullnameLine b.RoleSuffix

/-- The document `clusterRoleBindingTmpl` writes for one binding, without the newline
before it. -/
def clusterRoleBindingBlock (b : RBACBinding) : String :=
  "apiVersion: rbac.authorization.k8s.io/v1\nkind: ClusterRoleBinding\nmetadata:\n" ++
  fullnameLine b.Suffix ++
  "\n  labels:\n    \x7b\x7b- include \"keycloak-operator.labels\" . | nindent 4 \x7d\x7d\nroleRef:\n  kind: " ++
  b.RoleRefKind ++
  "\n  apiGroup: rbac.authorization.k8s.io\n" ++
  roleRefNameLine b ++
  "\nsubjects:\n  - kind: ServiceAccount\n    name: \x7b\x7b include \"keycloak-operator.serviceAccountName\" . \x7d\x7d\n    namespace: \x7b\x7b .Release.Namespace \x7d\x7d"

/-- The roleRef kind `roleBindingTmpl` writes for a binding. -/
def roleBindingKindText (b : RBACBinding) : String :=
  if b.IsBuiltinRole then b.RoleRefKind
  else if b.RoleRefKind = "Role" then "Role" else "ClusterRole"

/-- The document `roleBindingTmpl` writes for one binding, without the newline before
it. -/
def roleBindingBlock (b : RBACBinding) : String :=
  "apiVersion: rbac.authorization.k8s.io/v1\nkind: RoleBinding\nmetadata:\n" ++
  fullnameLine b.Suffix ++
  "\n  labels:\n    \x7b\x7b- include \"keycloak-operator.labels\" . | nindent 4 \x7d\x7d\nroleRef:\n  kind: " ++
  roleBindingKindText b ++
  "\n  apiGroup: rbac.authorization.k8s.io\n" ++
  roleRefNameLine b ++
  "\nsubjects:\n  - kind: ServiceAccount\n    name: \x7b\x7b include \"keycloak-operator.serviceAccountName\" . \x7d\x7d"

/-! ## Example records -/

/-- A Deployment record: one container with the operator image and port 8080. -/
def exampleDeployment : rawResource :=
  { Kind := "Deployment"
    Name := "keycloak-operator"
    Raw :=
      [("kind", .str "Deployment"),
       ("metadata", .map [("name", .str "keycloak-operator")]),
       ("spec", .map
         [("replicas", .int 1),
          ("template", .map
            [("spec", .map
              [("containers", .seq
                [.map
                  [("name", .str "keycloak-operator"),
                   ("image", .str "quay.io/keycloak/keycloak-operator:26.0.0"),
                   ("ports", .seq [.map [("containerPort", .int 8080)]])]])])])])] }

/-- A Service record. -/
def exampleService : rawResource :=
  { Kind := "Service"
    Name := "keycloak-operator"
    Raw :=
      [("kind", .str "Service"),
       ("metadata", .map [("name", .str "keycloak-operator")]),
       ("spec", .map [("type", .str "ClusterIP"), ("ports", .seq [.map [("port", .int 8080)]])])] }

/-- A ClusterRole record with a (here empty) rule list. -/
def exampleClusterRole : rawResource :=
  { Kind := "ClusterRole"
    Name := "keycloak-operator-cluster"
    Raw :=
      [("kind", .str "ClusterRole"),
       ("metadata", .map [("name", .str "keycloak-operator-cluster")]),
       ("rules", .seq [])] }

/-- A ClusterRoleBinding record that refers to `exampleClusterRole`. -/
def exampleClusterRoleBinding : rawResource :=
  { Kind := "ClusterRoleBinding"
    Name := "keycloak-operator-cluster-binding"
    Raw :=
      [("kind", .str "ClusterRoleBinding"),
       ("metadata", .map [("name", .str "keycloak-operator-cluster-binding")]),
       ("roleRef", .map [("kind", .str "ClusterRole"), ("name", .str "keycloak-operator-cluster")])] }

/-- A RoleBinding record that refers to the role `view`, which no record defines. -/
def exampleViewBinding : rawResource :=
  { Kind := "RoleBinding"
    Name := "keycloak-operator-view"
    Raw :=
      [("kind", .str "RoleBinding"),
       ("metadata", .map [("name", .str "keycloak-operator-view")]),
       ("roleRef", .map [("kind", .str "ClusterRole"), ("name", .str "view")])] }

/-- A manifest with the bindings placed before the role they may refer to. -/
def exampleManifest : List rawResource :=
  [exampleClusterRoleBinding, exampleViewBinding, exampleDeployment, exampleService,
   exampleClusterRole]

/-- The binding `exampleClusterRoleBinding` resolves to. -/
def exampleManagedBinding : RBACBinding :=
  { OriginalName := "keycloak-operator-cluster-binding"
    Suffix := "cluster-binding"
    RoleRefKind := "ClusterRole"
    RoleRefName := "keycloak-operator-cluster"
    RoleSuffix := "cluster"
    IsBuiltinRole := false }

/-- The binding `exampleViewBinding` resolves to. -/
def exampleBuiltinBinding : RBACBinding :=
  { OriginalName := "keycloak-operator-view"
    Suffix := "view"
    RoleRefKind := "ClusterRole"
    RoleRefName := "view"
    RoleSuffix := ""
    IsBuiltinRole := true }

/-- The model `buildUpstream sampleLib` returns for `exampleManifest` and for its reverse. -/
def exampleUpstream : Upstream :=
  { AppVersion := "26.0.0"
    OperatorImage := "quay.io/keycloak/keycloak-operator"
    KeycloakImage := ""
    Deployment := { Replicas := 1, ContainerName := "keycloak-operator", ContainerPort := 8080 }
    Service := { Type_ := "ClusterIP", Port := 8080 }
    RBAC :=
      { ClusterRoles :=
          [{ OriginalName := "keycloak-operator-cluster", Suffix := "cluster", RulesYAML := "[]" }]
        ClusterRoleBindings := [exampleManagedBinding]
        RoleBindings := [exampleBuiltinBinding] } }

/-- A Deployment record whose first container has an image without a tag. -/
def untaggedDeployment : rawResource :=
  { Kind := "Deployment"
    Name := "keycloak-operator"
    Raw :=
      [("kind", .str "Deployment"),
       ("spec", .map
         [("template", .map
            [("spec", .map
              [("containers", .seq
                [.map [("image", .str "quay.io/keycloak/keycloak-operator")]])])])])] }

/-- A Deployment record with an empty container list. -/
def emptyDeployment : rawResource :=
  { Kind := "Deployment"
    Name := "keycloak-operator"
    Raw :=
      [("kind", .str "Deployment"),
       ("spec", .map [("template", .map [("spec", .map [("containers", .seq [])])])])] }

/-- A Role record without a `rules` key. -/
def ruleLessRole : rawResource :=
  { Kind := "Role"
    Name := "keycloak-operator-role"
    Raw := [("kind", .str "Role"), ("metadata", .map [("name", .str "keycloak-operator-role")])] }

/-- A ClusterRole record without a `rules` key whose name holds a double quote. -/
def quotedNameRole : rawResource :=
  { Kind := "ClusterRole"
    Name := "a\"b"
    Raw := [("kind", .str "ClusterRole"), ("metadata", .map [("name", .str "a\"b")])] }

/-- The ClusterRole record named `keycloak-operator-cluster` with the rules `rules`. -/
def clusterRoleWithRules (rules : Value) : rawResource :=
  { Kind := "ClusterRole"
    Name := "keycloak-operator-cluster"
    Raw :=
      [("kind", .str "ClusterRole"),
       ("metadata", .map [("name", .str "keycloak-operator-cluster")]),
       ("rules", rules)] }

/-- The manifest of one Deployment, one Service, one ClusterRole and one ClusterRoleBinding
that refers to the ClusterRole. -/
def referenceManifest (rules : Value) : List rawResource :=
  [exampleDeployment, exampleService, clusterRoleWithRules rules, exampleClusterRoleBinding]

/-- A record of a kind `buildUpstream` does not know. -/
def exampleConfigMap : rawResource :=
  { Kind := "ConfigMap"
    Name := "keycloak-operator-config"
    Raw := [("kind", .str "ConfigMap"), ("rules", .seq []), ("roleRef", .map [])] }

/-- A Deployment record whose first container has five environment entries, two of them
named `RELATED_IMAGE_KEYCLOAK`. -/
def envDeployment : rawResource :=
  { Kind := "Deployment"
    Name := "keycloak-operator"
    Raw :=
      [("kind", .str "Deployment"),
       ("spec", .map
         [("template", .map
            [("spec", .map
              [("containers", .seq
                [.map
                  [("image", .str "quay.io/keycloak/keycloak-operator:26.0.0"),
                   ("env", .seq
                     [.map [("name", .str "KUBERNETES_NAMESPACE")],
                      .map [("name", .str "RELATED_IMAGE_KEYCLOAK"),
                            ("value", .str "quay.io/keycloak/keycloak:25.0.0")],
                      .map [("name", .str "QUARKUS_LOG_LEVEL"), ("value", .str "INFO")],
                      .map [("name", .str "RELATED_IMAGE_KEYCLOAK"),
                            ("value", .str "registry.example:5000/keycloak:26.0.0")],
                      .map [("name", .str "OPERATOR_MODE"), ("value", .str "cluster")]])]])])])])] }

/-- A model with two roles and three role bindings, for the templates. -/
def exampleRBACModel : Upstream :=
  { AppVersion := "26.0.0"
    RBAC :=
      { Roles :=
          [{ OriginalName := "keycloak-operator-role", Suffix := "role",
             RulesYAML := "- apiGroups:\n  - apps\n\n  resources:\n  - deployments" },
           { OriginalName := "keycloakcontroller-role", Suffix := "keycloak-role",
             RulesYAML := "[]" }]
        RoleBindings :=
          [exampleBuiltinBinding,
           { OriginalName := "keycloak-operator-role-binding"
             Suffix := "role-binding"
             RoleRefKind := "Role"
             RoleRefName := "keycloak-operator-role"
             RoleSuffix := "role"
             IsBuiltinRole := false }] } }

/-! ## List and string facts -/

theorem lastIndex_ge (c : Char) (l : List Char) : -1 ≤ lastIndex c l := by
  induction l with
  | nil => simp [lastIndex]
  | cons x xs ih =>
    simp only [lastIndex]
    split_ifs <;> omega

theorem lastIndex_eq_neg_one_iff (c : Char) (l : List Char) : lastIndex c l = -1 ↔ c ∉ l := by
  induction l with
  | nil => simp [lastIndex]
  | cons x xs ih =>
    have hge := lastIndex_ge c xs
    simp only [lastIndex, List.mem_cons, not_or]
    split_ifs with h1 h2
    · constructor
      · intro h; omega
      · intro h; exact absurd (ih.mpr h.2) h1
    · subst h2; simp
    · have : lastIndex c xs = -1 := by simpa using h1
      constructor
      · intro _; exact ⟨fun h => h2 h.symm, ih.mp this⟩
      · intro _; trivial

theorem lastIndex_cons (c x : Char) (xs : List Char) :
    lastIndex c (x :: xs) =
      if lastIndex c xs ≠ -1 then lastIndex c xs + 1 else if x = c then 0 else -1 := rfl

theorem lastIndex_append_cons (c : Char) (a t : List Char) (h : c ∉ t) :
    lastIndex c (a ++ c :: t) = a.length := by
  induction a with
  | nil =>
    have := (lastIndex_eq_neg_one_iff c t).mpr h
    simp [lastIndex, this]
  | cons x xs ih =>
    rw [List.cons_append, lastIndex_cons, ih]
    have hne : ((xs.length : Nat) : Int) ≠ -1 := by omega
    simp [hne]

theorem take_length_append_cons (a t : List Char) (c : Char) :
    (a ++ c :: t).take a.length = a := by
  simp

theorem drop_length_succ_append_cons (a t : List Char) (c : Char) :
    (a ++ c :: t).drop (a.length + 1) = t := by
  induction a with
  | nil => simp
  | cons x xs ih => simp

theorem hasPrefix_append (p s : String) : hasPrefix (p ++ s) p = true := by
  simp [hasPrefix, String.data_append]

theorem trimPrefix_append (p s : String) : trimPrefix (p ++ s) p = s := by
  simp [trimPrefix, hasPrefix_append, String.data_append]

theorem hasPrefix_dash_false (s : String) (h : s.data.head? ≠ some '-') :
    hasPrefix s "-" = false := by
  cases s with
  | mk d =>
    cases d with
    | nil => rfl
    | cons x xs =>
      have hx : x ≠ '-' := by simpa using h
      have : ('-' == x) = false := by simpa using fun h => hx h.symm
      simp [hasPrefix, List.isPrefixOf, this]

theorem trimPrefix_dash_of_not (s : String) (h : hasPrefix s "-" = false) :
    trimPrefix s "-" = s := by
  simp [trimPrefix, h]

/-! ## The loops of `buildUpstream` -/

theorem parseRBACRole_ok {L : GoLib} {r : rawResource} {role : RBACRole}
    (h : parseRBACRole L r = .ok role) :
    role.OriginalName = r.Name ∧ role.Suffix = deriveSuffix r.Name := by
  unfold parseRBACRole at h
  split at h
  · cases h
  · split at h
    · cases h
    · cases h; exact ⟨rfl, rfl⟩

theorem foldl_envStep_frame (es : List Value) (u : Upstream) :
    (es.foldl envStep u).AppVersion = u.AppVersion ∧
    (es.foldl envStep u).OperatorImage = u.OperatorImage ∧
    (es.foldl envStep u).RBAC = u.RBAC := by
  induction es generalizing u with
  | nil => simp
  | cons e es ih =>
    rw [List.foldl_cons]
    obtain ⟨h1, h2, h3⟩ := ih (envStep u e)
    rw [h1, h2, h3]
    unfold envStep
    simp only
    split_ifs <;> simp

theorem parseDeployment_no_containers (L : GoLib) (u : Upstream) (r : rawResource)
    (h : deploymentContainers r = []) :
    parseDeployment L u r = .error "no containers found" := by
  unfold deploymentContainers at h
  simp [parseDeployment, h]

theorem parseDeployment_ok {L : GoLib} {u u1 : Upstream} {r : rawResource}
    (h : parseDeployment L u r = .ok u1) :
    deploymentContainers r ≠ [] ∧
    u1.AppVersion = (splitImage (deploymentImage r)).2 ∧
    u1.OperatorImage = (splitImage (deploymentImage r)).1 ∧
    u1.RBAC = u.RBAC := by
  by_cases hc : deploymentContainers r = []
  · rw [parseDeployment_no_containers L u r hc] at h; cases h
  · refine ⟨hc, ?_⟩
    have hlen : ¬ (deploymentContainers r).length = 0 := by
      simpa [List.length_eq_zero] using hc
    unfold deploymentContainers at hlen
    unfold parseDeployment at h
    simp only [hlen, if_false] at h
    injection h with h
    subst h
    refine ⟨?_, ?_, ?_⟩
    · rw [(foldl_envStep_frame _ _).1]
      unfold deploymentImage deploymentContainers
      split <;> split <;> rfl
    · rw [(foldl_envStep_frame _ _).2.1]
      unfold deploymentImage deploymentContainers
      split <;> split <;> rfl
    · rw [(foldl_envStep_frame _ _).2.2]
      split <;> split <;> rfl

theorem parseService_frame (L : GoLib) (u : Upstream) (r : rawResource) :
    (parseService L u r).AppVersion = u.AppVersion ∧
    (parseService L u r).OperatorImage = u.OperatorImage ∧
    (parseService L u r).RBAC = u.RBAC := by
  unfold parseService
  simp only
  split_ifs <;> simp

/-- What a successful first loop leaves behind: the map holds one entry per role record
(the latest in front), the role lists grow by one role per record of their kind, and the
binding lists are untouched. -/
theorem firstPass_ok_spec {L : GoLib} (rs : List rawResource) {u u1 : Upstream}
    {m m1 : ManagedRoles} (h : firstPass L rs u m = .ok (u1, m1)) :
    m1 = ((rs.filter (fun r => decide (r.Kind = "ClusterRole" ∨ r.Kind = "Role"))).map
            roleEntry).reverse ++ m ∧
    u1.RBAC.ClusterRoles.map roleKey =
      u.RBAC.ClusterRoles.map roleKey ++
        (rs.filter (fun r => decide (r.Kind = "ClusterRole"))).map roleEntry ∧
    u1.RBAC.Roles.map roleKey =
      u.RBAC.Roles.map roleKey ++ (rs.filter (fun r => decide (r.Kind = "Role"))).map roleEntry ∧
    u1.RBAC.ClusterRoleBindings = u.RBAC.ClusterRoleBindings ∧
    u1.RBAC.RoleBindings = u.RBAC.RoleBindings := by
  induction rs generalizing u m with
  | nil =>
    simp only [firstPass, Except.ok.injEq, Prod.mk.injEq] at h
    obtain ⟨rfl, rfl⟩ := h
    simp
  | cons r rest ih =>
    unfold firstPass at h
    split_ifs at h with h1 h2 h3 h4
    · split at h
      · cases h
      · rename_i role hrole
        obtain ⟨hn, hs⟩ := parseRBACRole_ok hrole
        obtain ⟨e1, e2, e3, e4, e5⟩ := ih h
        have hne : r.Kind ≠ "Role" := by rw [h1]; decide
        refine ⟨?_, ?_, ?_, ?_, ?_⟩
        · simp [e1, List.filter_cons, h1, roleEntry, hs]
        · simp [e2, List.filter_cons, h1, roleEntry, roleKey, hs, hn]
        · simp [e3, List.filter_cons, hne]
        · simp [e4]
        · simp [e5]
    · split at h
      · cases h
      · rename_i role hrole
        obtain ⟨hn, hs⟩ := parseRBACRole_ok hrole
        obtain ⟨e1, e2, e3, e4, e5⟩ := ih h
        refine ⟨?_, ?_, ?_, ?_, ?_⟩
        · simp [e1, List.filter_cons, h2, roleEntry, hs]
        · simp [e2, List.filter_cons, h1]
        · simp [e3, List.filter_cons, h2, roleEntry, roleKey, hs, hn]
        · simp [e4]
        · simp [e5]
    · split at h
      · cases h
      · rename_i u2 hdep
        obtain ⟨_, _, _, hr⟩ := parseDeployment_ok hdep
        obtain ⟨e1, e2, e3, e4, e5⟩ := ih h
        refine ⟨?_, ?_, ?_, ?_, ?_⟩
        · simp [e1, List.filter_cons, h1, h2]
        · simp [e2, List.filter_cons, h1, hr]
        · simp [e3, List.filter_cons, h2, hr]
        · simp [e4, hr]
        · simp [e5, hr]
    · obtain ⟨e1, e2, e3, e4, e5⟩ := ih h
      have hr := (parseService_frame L u r).2.2
      refine ⟨?_, ?_, ?_, ?_, ?_⟩
      · simp [e1, List.filter_cons, h1, h2]
      · simp [e2, List.filter_cons, h1, hr]
      · simp [e3, List.filter_cons, h2, hr]
      · simp [e4, hr]
      · simp [e5, hr]
    · obtain ⟨e1, e2, e3, e4, e5⟩ := ih h
      refine ⟨?_, ?_, ?_, ?_, ?_⟩
      · simp [e1, List.filter_cons, h1, h2]
      · simp [e2, List.filter_cons, h1]
      · simp [e3, List.filter_cons, h2]
      · simp [e4]
      · simp [e5]

/-- The second loop only appends to the two binding lists: one binding per binding
record, in input order, each resolved against the same finished map. -/
theorem secondPass_eq (m : ManagedRoles) (rs : List rawResource) (u : Upstream) :
    secondPass m rs u =
      { u with RBAC :=
          { u.RBAC with
            ClusterRoleBindings :=
              u.RBAC.ClusterRoleBindings ++
                (rs.filter (fun r => decide (r.Kind = "ClusterRoleBinding"))).map
                  (fun r => parseRBACBinding r m)
            RoleBindings :=
              u.RBAC.RoleBindings ++
                (rs.filter (fun r => decide (r.Kind = "RoleBinding"))).map
                  (fun r => parseRBACBinding r m) } } := by
  induction rs generalizing u with
  | nil => simp [secondPass]
  | cons r rest ih =>
    unfold secondPass
    split_ifs with h1 h2
    · have hne : r.Kind ≠ "RoleBinding" := by rw [h1]; decide
      rw [ih]
      simp [List.filter_cons, h1, hne]
    · rw [ih]
      simp [List.filter_cons, h1, h2]
    · rw [ih]
      simp [List.filter_cons, h1, h2]

/-- A successful `buildUpstream` is a successful first loop followed by the second. -/
theorem buildUpstream_ok {L : GoLib} {rs : List rawResource} {u : Upstream}
    (h : buildUpstream L rs = .ok u) :
    ∃ u1 m, firstPass L rs {} [] = .ok (u1, m) ∧ u = secondPass m rs u1 ∧ u.AppVersion ≠ "" := by
  unfold buildUpstream at h
  split at h
  · cases h
  · rename_i u1 m hfp
    simp only at h
    split_ifs at h with hv
    cases h
    exact ⟨u1, m, hfp, rfl, hv⟩

theorem lookup_suffix_entries (n : String) (e m : ManagedRoles)
    (he : ∀ p ∈ e, p.2 = deriveSuffix p.1) :
    List.lookup n (e ++ m) =
      if n ∈ e.map Prod.fst then some (deriveSuffix n) else List.lookup n m := by
  induction e with
  | nil => simp
  | cons p e ih =>
    obtain ⟨k, v⟩ := p
    have hv : v = deriveSuffix k := he (k, v) (List.mem_cons_self _ _)
    have ih1 := ih (fun q hq => he q (List.mem_cons_of_mem _ hq))
    rw [List.cons_append, List.lookup_cons]
    by_cases hk : n = k
    · subst hk
      simp [hv]
    · have hb : (n == k) = false := by simpa using hk
      simp only [hb, ih1, List.map_cons, List.mem_cons, hk, false_or]

/-- Reading the finished map: a name is found exactly when a role record carries it, and
the suffix found is the one derived from the name. -/
theorem lookup_managedRoles (n : String) (rs : List rawResource) :
    List.lookup n (((rs.filter (fun r => decide (r.Kind = "ClusterRole" ∨ r.Kind = "Role"))).map
        roleEntry).reverse ++ []) =
      if ∃ r ∈ rs, (r.Kind = "ClusterRole" ∨ r.Kind = "Role") ∧ r.Name = n
      then some (deriveSuffix n) else none := by
  rw [lookup_suffix_entries]
  · have hiff : (n ∈ List.map Prod.fst (((rs.filter
          (fun r => decide (r.Kind = "ClusterRole" ∨ r.Kind = "Role"))).map roleEntry).reverse)) ↔
        ∃ r ∈ rs, (r.Kind = "ClusterRole" ∨ r.Kind = "Role") ∧ r.Name = n := by
      simp only [List.map_reverse, List.mem_reverse, List.mem_map, List.mem_filter,
        decide_eq_true_eq, roleEntry]
      constructor
      · rintro ⟨p, ⟨r, ⟨hr, hk⟩, rfl⟩, rfl⟩
        exact ⟨r, hr, hk, rfl⟩
      · rintro ⟨r, hr, hk, rfl⟩
        exact ⟨_, ⟨r, ⟨hr, hk⟩, rfl⟩, rfl⟩
    by_cases hex : ∃ r ∈ rs, (r.Kind = "ClusterRole" ∨ r.Kind = "Role") ∧ r.Name = n
    · rw [if_pos (hiff.mpr hex), if_pos hex]
    · rw [if_neg (fun h => hex (hiff.mp h)), if_neg hex]
      rfl
  · intro p hp
    simp only [List.mem_reverse, List.mem_map, roleEntry] at hp
    obtain ⟨r, _, rfl⟩ := hp
    rfl

/-- The bindings of a successful build, record by record. -/
theorem buildUpstream_bindings {L : GoLib} {rs : List rawResource} {u : Upstream}
    (h : buildUpstream L rs = .ok u) :
    ∃ m : ManagedRoles,
      (∀ n, List.lookup n m =
        if ∃ r ∈ rs, (r.Kind = "ClusterRole" ∨ r.Kind = "Role") ∧ r.Name = n
        then some (deriveSuffix n) else none) ∧
      u.RBAC.ClusterRoleBindings =
        (rs.filter (fun r => decide (r.Kind = "ClusterRoleBinding"))).map
          (fun r => parseRBACBinding r m) ∧
      u.RBAC.RoleBindings =
        (rs.filter (fun r => decide (r.Kind = "RoleBinding"))).map
          (fun r => parseRBACBinding r m) := by
  obtain ⟨u1, m, hfp, rfl, _⟩ := buildUpstream_ok h
  obtain ⟨e1, _, _, e4, e5⟩ := firstPass_ok_spec rs hfp
  refine ⟨m, ?_, ?_, ?_⟩
  · intro n
    rw [e1]
    exact lookup_managedRoles n rs
  · rw [secondPass_eq]
    simp [e4]
  · rw [secondPass_eq]
    simp [e5]

/-- The roles of a successful build carry the suffix derived from their own name, and
there is one for every role record. -/
theorem buildUpstream_roles {L : GoLib} {rs : List rawResource} {u : Upstream}
    (h : buildUpstream L rs = .ok u) :
    (∀ role, (role ∈ u.RBAC.ClusterRoles ∨ role ∈ u.RBAC.Roles) →
      role.Suffix = deriveSuffix role.OriginalName) ∧
    (∀ r ∈ rs, (r.Kind = "ClusterRole" ∨ r.Kind = "Role") →
      ∃ role, (role ∈ u.RBAC.ClusterRoles ∨ role ∈ u.RBAC.Roles) ∧
        role.OriginalName = r.Name) := by
  obtain ⟨u1, m, hfp, rfl, _⟩ := buildUpstream_ok h
  obtain ⟨_, e2, e3, _, _⟩ := firstPass_ok_spec rs hfp
  rw [secondPass_eq]
  simp only [List.map_nil, List.nil_append] at e2 e3
  have key : ∀ (l : List RBACRole) (f : rawResource → Bool),
      l.map roleKey = (rs.filter f).map roleEntry →
      (∀ role ∈ l, role.Suffix = deriveSuffix role.OriginalName) ∧
      (∀ r ∈ rs, f r = true → ∃ role ∈ l, role.OriginalName = r.Name) := by
    intro l f hl
    constructor
    · intro role hrole
      have hm : roleKey role ∈ l.map roleKey := List.mem_map_of_mem _ hrole
      rw [hl] at hm
      obtain ⟨r, _, hr⟩ := List.mem_map.mp hm
      simp only [roleEntry, roleKey, Prod.mk.injEq] at hr
      rw [← hr.2, ← hr.1]
    · intro r hr hf
      have hm : roleEntry r ∈ (rs.filter f).map roleEntry :=
        List.mem_map_of_mem _ (List.mem_filter.mpr ⟨hr, hf⟩)
      rw [← hl] at hm
      obtain ⟨role, hrole, hk⟩ := List.mem_map.mp hm
      simp only [roleEntry, roleKey, Prod.mk.injEq] at hk
      exact ⟨role, hrole, hk.1⟩
  obtain ⟨a1, a2⟩ := key _ _ e2
  obtain ⟨b1, b2⟩ := key _ _ e3
  constructor
  · rintro role (hr | hr)
    · exact a1 role hr
    · exact b1 role hr
  · rintro r hr (hk | hk)
    · obtain ⟨role, h1, h2⟩ := a2 r hr (by simpa using hk)
      exact ⟨role, Or.inl h1, h2⟩
    · obtain ⟨role, h1, h2⟩ := b2 r hr (by simpa using hk)
      exact ⟨role, Or.inr h1, h2⟩

theorem exampleManifest_build : buildUpstream sampleLib exampleManifest = .ok exampleUpstream := by
  rfl

theorem exampleManifest_reverse_build :
    buildUpstream sampleLib exampleManifest.reverse = .ok exampleUpstream := by
  rfl

/-! ## Failures and the application version -/

theorem except_cases {α : Type} (x : Except String α) :
    (∃ e, x = .error e) ∨ (∃ a, x = .ok a) := by
  cases x with
  | error e => exact Or.inl ⟨e, rfl⟩
  | ok a => exact Or.inr ⟨a, rfl⟩

/-- The first loop over a concatenation: the second part starts from the state the first
part reached, unless the first part already failed. -/
theorem firstPass_append (L : GoLib) (a b : List rawResource) (u : Upstream)
    (m : ManagedRoles) :
    firstPass L (a ++ b) u m =
      match firstPass L a u m with
      | .error e => .error e
      | .ok (u1, m1) => firstPass L b u1 m1 := by
  induction a generalizing u m with
  | nil => simp [firstPass]
  | cons r rest ih =>
    simp only [List.cons_append, firstPass]
    split_ifs
    · split
      · rfl
      · exact ih _ _
    · split
      · rfl
      · exact ih _ _
    · split
      · rfl
      · exact ih _ _
    · exact ih _ _
    · exact ih _ _

theorem firstPass_no_deployment {L : GoLib} (rs : List rawResource) {u u1 : Upstream}
    {m m1 : ManagedRoles} (hno : ∀ r ∈ rs, r.Kind ≠ "Deployment")
    (h : firstPass L rs u m = .ok (u1, m1)) :
    u1.AppVersion = u.AppVersion ∧ u1.OperatorImage = u.OperatorImage := by
  induction rs generalizing u m with
  | nil =>
    simp only [firstPass, Except.ok.injEq, Prod.mk.injEq] at h
    obtain ⟨rfl, rfl⟩ := h
    exact ⟨rfl, rfl⟩
  | cons r rest ih =>
    have hrest : ∀ x ∈ rest, x.Kind ≠ "Deployment" :=
      fun x hx => hno x (List.mem_cons_of_mem _ hx)
    have hr : r.Kind ≠ "Deployment" := hno r (List.mem_cons_self _ _)
    unfold firstPass at h
    split_ifs at h with h1 h2 h4
    · split at h
      · cases h
      · obtain ⟨e1, e2⟩ := ih hrest h
        exact ⟨e1, e2⟩
    · split at h
      · cases h
      · obtain ⟨e1, e2⟩ := ih hrest h
        exact ⟨e1, e2⟩
    · obtain ⟨e1, e2⟩ := ih hrest h
      obtain ⟨f1, f2, _⟩ := parseService_frame L u r
      exact ⟨e1.trans f1, e2.trans f2⟩
    · exact ih hrest h

theorem firstPass_one_deployment {L : GoLib} (rs : List rawResource) (d : rawResource)
    {u u1 : Upstream} {m m1 : ManagedRoles}
    (hone : rs.filter (fun r => decide (r.Kind = "Deployment")) = [d])
    (h : firstPass L rs u m = .ok (u1, m1)) :
    u1.AppVersion = (splitImage (deploymentImage d)).2 ∧
    u1.OperatorImage = (splitImage (deploymentImage d)).1 := by
  induction rs generalizing u m with
  | nil => simp at hone
  | cons r rest ih =>
    by_cases hk : r.Kind = "Deployment"
    · have hc1 : r.Kind ≠ "ClusterRole" := by rw [hk]; decide
      have hc2 : r.Kind ≠ "Role" := by rw [hk]; decide
      simp only [List.filter_cons, hk, decide_True, if_true, List.cons.injEq] at hone
      obtain ⟨rfl, hnone⟩ := hone
      have hrest : ∀ x ∈ rest, x.Kind ≠ "Deployment" := by
        intro x hx hxk
        have : x ∈ rest.filter (fun r => decide (r.Kind = "Deployment")) :=
          List.mem_filter.mpr ⟨hx, by simpa using hxk⟩
        rw [hnone] at this
        cases this
      unfold firstPass at h
      rw [if_neg hc1, if_neg hc2, if_pos hk] at h
      split at h
      · cases h
      · rename_i u2 hdep
        obtain ⟨_, a1, a2, _⟩ := parseDeployment_ok hdep
        obtain ⟨e1, e2⟩ := firstPass_no_deployment rest hrest h
        exact ⟨e1.trans a1, e2.trans a2⟩
    · simp only [List.filter_cons, hk, decide_False] at hone
      unfold firstPass at h
      split_ifs at h with h1 h2 h4
      · split at h
        · cases h
        · exact ih (by simpa using hone) h
      · split at h
        · cases h
        · exact ih (by simpa using hone) h
      · exact ih (by simpa using hone) h
      · exact ih (by simpa using hone) h

/-- A Deployment record without containers stops the first loop, whatever precedes or
follows it. -/
theorem firstPass_no_containers (L : GoLib) (rs : List rawResource) (d : rawResource)
    (u : Upstream) (m : ManagedRoles) (hd : d ∈ rs) (hk : d.Kind = "Deployment")
    (hc : deploymentContainers d = []) :
    ∃ e, firstPass L rs u m = .error e := by
  induction rs generalizing u m with
  | nil => cases hd
  | cons r rest ih =>
    rcases List.mem_cons.mp hd with rfl | hd1
    · have hc1 : d.Kind ≠ "ClusterRole" := by rw [hk]; decide
      have hc2 : d.Kind ≠ "Role" := by rw [hk]; decide
      unfold firstPass
      rw [if_neg hc1, if_neg hc2, if_pos hk, parseDeployment_no_containers L u d hc]
      exact ⟨_, rfl⟩
    · unfold firstPass
      split_ifs
      · split
        · exact ⟨_, rfl⟩
        · exact ih _ _ hd1
      · split
        · exact ⟨_, rfl⟩
        · exact ih _ _ hd1
      · split
        · exact ⟨_, rfl⟩
        · exact ih _ _ hd1
      · exact ih _ _ hd1
      · exact ih _ _ hd1

theorem parseRBACRole_no_rules (L : GoLib) (r : rawResource)
    (h : mapGet r.Raw "rules" = none) : parseRBACRole L r = .error "no rules found" := by
  unfold parseRBACRole
  rw [h]

/-- The first loop at a role record without a `rules` key. -/
theorem firstPass_no_rules_head (L : GoLib) (r : rawResource) (rest : List rawResource)
    (u : Upstream) (m : ManagedRoles) (hk : r.Kind = "ClusterRole" ∨ r.Kind = "Role")
    (h : mapGet r.Raw "rules" = none) :
    firstPass L (r :: rest) u m =
      .error ("parsing " ++ r.Kind ++ " " ++ quote L r.Name ++ ": no rules found") := by
  unfold firstPass
  rcases hk with hk | hk
  · rw [if_pos hk, parseRBACRole_no_rules L r h, hk]
    simp only [String.append_assoc]
    rfl
  · have hc1 : r.Kind ≠ "ClusterRole" := by rw [hk]; decide
    rw [if_neg hc1, if_pos hk, parseRBACRole_no_rules L r h, hk]
    simp only [String.append_assoc]
    rfl

/-- A role record without a `rules` key stops the first loop, whatever precedes or follows
it. -/
theorem firstPass_no_rules (L : GoLib) (rs : List rawResource) (r : rawResource)
    (u : Upstream) (m : ManagedRoles) (hr : r ∈ rs)
    (hk : r.Kind = "ClusterRole" ∨ r.Kind = "Role") (h : mapGet r.Raw "rules" = none) :
    ∃ e, firstPass L rs u m = .error e := by
  obtain ⟨pre, post, rfl⟩ := List.append_of_mem hr
  rw [firstPass_append]
  split
  · exact ⟨_, rfl⟩
  · exact ⟨_, firstPass_no_rules_head L r post _ _ hk h⟩

/-- A failing first loop is a failing build, with the same message. -/
theorem buildUpstream_error_of_firstPass {L : GoLib} {rs : List rawResource} {e : String}
    (h : firstPass L rs {} [] = .error e) : buildUpstream L rs = .error e := by
  unfold buildUpstream
  rw [h]

/-! ## Quoting -/

theorem appendEscapedRune_plain (L : GoLib) (c : Char)
    (h : 0x20 ≤ c.toNat ∧ c.toNat ≤ 0x7E ∧ c ≠ dquote ∧ c ≠ backslash) :
    appendEscapedRune L c = [c] := by
  obtain ⟨h1, h2, h3, h4⟩ := h
  have hp : isPrint L c = true := by
    unfold isPrint
    have : c.toNat ≤ 0xFF := by omega
    simp [this, h1, h2]
  unfold appendEscapedRune
  simp [h3, h4, hp]

theorem flatten_map_plain (L : GoLib) (l : List Char)
    (h : ∀ c ∈ l, 0x20 ≤ c.toNat ∧ c.toNat ≤ 0x7E ∧ c ≠ dquote ∧ c ≠ backslash) :
    (l.map (appendEscapedRune L)).flatten = l := by
  induction l with
  | nil => rfl
  | cons c cs ih =>
    rw [List.map_cons, List.flatten_cons, appendEscapedRune_plain L c (h c (List.mem_cons_self _ _)),
      ih (fun x hx => h x (List.mem_cons_of_mem _ hx))]
    rfl

theorem quote_plain (L : GoLib) (s : String) (h : plainName s) :
    quote L s = ⟨dquote :: (s.data ++ [dquote])⟩ := by
  unfold quote
  rw [flatten_map_plain L s.data h]

theorem infix_of_quote_plain (L : GoLib) (a b s : String) (h : plainName s) :
    s.data <:+: (a ++ quote L s ++ b).data := by
  rw [quote_plain L s h]
  refine ⟨a.data ++ [dquote], [dquote] ++ b.data, ?_⟩
  simp [String.data_append]

/-! ## Suffix derivation -/

theorem hasPrefix_elim {y p : String} (h : hasPrefix y p = true) : ∃ s : String, y = p ++ s := by
  unfold hasPrefix at h
  obtain ⟨t, ht⟩ := List.isPrefixOf_iff_prefix.mp h
  refine ⟨⟨t⟩, ?_⟩
  apply String.ext
  rw [String.data_append, ht]

theorem deriveSuffix_operator_eq (s : String) :
    deriveSuffix ("keycloak-operator-" ++ s) = trimPrefix s "-" := by
  simp [deriveSuffix, replacements, deriveSuffixWith, hasPrefix_append, trimPrefix_append]

theorem deriveSuffix_realmimport_eq (s : String) :
    deriveSuffix ("keycloakrealmimportcontroller-" ++ s) = "realmimport-" ++ s := by
  have h1 : hasPrefix ("keycloakrealmimportcontroller-" ++ s) "keycloak-operator-" = false := by
    simp [hasPrefix, String.data_append, List.isPrefixOf]
  have h2 : hasPrefix ("realmimport-" ++ s) "-" = false := by
    simp [hasPrefix, String.data_append, List.isPrefixOf]
  simp [deriveSuffix, replacements, deriveSuffixWith, h1, hasPrefix_append, trimPrefix_append,
    trimPrefix_dash_of_not _ h2]

theorem deriveSuffix_controller_eq (s : String) :
    deriveSuffix ("keycloakcontroller-" ++ s) = "keycloak-" ++ s := by
  have h1 : hasPrefix ("keycloakcontroller-" ++ s) "keycloak-operator-" = false := by
    simp [hasPrefix, String.data_append, List.isPrefixOf]
  have h3 : hasPrefix ("keycloakcontroller-" ++ s) "keycloakrealmimportcontroller-" = false := by
    simp [hasPrefix, String.data_append, List.isPrefixOf]
  have h2 : hasPrefix ("keycloak-" ++ s) "-" = false := by
    simp [hasPrefix, String.data_append, List.isPrefixOf]
  simp [deriveSuffix, replacements, deriveSuffixWith, h1, h3, hasPrefix_append,
    trimPrefix_append, trimPrefix_dash_of_not _ h2]

theorem deriveSuffix_no_prefix (name : String) (h : beginsWithRewritePrefix name = false) :
    deriveSuffix name = name := by
  simp only [beginsWithRewritePrefix, Bool.or_eq_false_iff] at h
  obtain ⟨⟨h1, h2⟩, h3⟩ := h
  simp [deriveSuffix, replacements, deriveSuffixWith, h1, h2, h3]

theorem trimPrefix_length_le (s p : String) : (trimPrefix s p).length ≤ s.length := by
  unfold trimPrefix
  split_ifs
  · show (List.drop p.data.length s.data).length ≤ s.data.length
    rw [List.length_drop]
    exact Nat.sub_le _ _
  · exact le_refl _

/-- A name that begins with a rewrite prefix gets strictly shorter. -/
theorem deriveSuffix_length_lt (y : String) (h : beginsWithRewritePrefix y = true) :
    (deriveSuffix y).length < y.length := by
  simp only [beginsWithRewritePrefix, Bool.or_eq_true] at h
  rcases h with (h | h) | h
  · obtain ⟨s, rfl⟩ := hasPrefix_elim h
    rw [deriveSuffix_operator_eq]
    have := trimPrefix_length_le s "-"
    simp only [String.length_append]
    have hl : ("keycloak-operator-" : String).length = 18 := by decide
    omega
  · obtain ⟨s, rfl⟩ := hasPrefix_elim h
    rw [deriveSuffix_realmimport_eq]
    simp only [String.length_append]
    have hl : ("keycloakrealmimportcontroller-" : String).length = 30 := by decide
    have hr : ("realmimport-" : String).length = 12 := by decide
    omega
  · obtain ⟨s, rfl⟩ := hasPrefix_elim h
    rw [deriveSuffix_controller_eq]
    simp only [String.length_append]
    have hl : ("keycloakcontroller-" : String).length = 19 := by decide
    have hr : ("keycloak-" : String).length = 9 := by decide
    omega

theorem hasPrefix_trimPrefix_dash (s : String) :
    hasPrefix (trimPrefix s "-") "-" = hasPrefix ("keycloak-operator-" ++ s) "keycloak-operator---" := by
  cases s with
  | mk d =>
    cases d with
    | nil => rfl
    | cons c t =>
      by_cases hc : c = '-'
      · subst hc
        cases t with
        | nil => rfl
        | cons c2 t2 =>
          simp [trimPrefix, hasPrefix, String.data_append, List.isPrefixOf]
      · have hb : ('-' == c) = false := by simpa using fun h => hc h.symm
        simp [trimPrefix, hasPrefix, String.data_append, List.isPrefixOf, hb]

/-! ## Single records in the first loop -/

theorem firstPass_clusterRole_ok (L : GoLib) (r : rawResource) (rest : List rawResource)
    (u : Upstream) (m : ManagedRoles) (role : RBACRole) (hk : r.Kind = "ClusterRole")
    (hrole : parseRBACRole L r = .ok role) :
    firstPass L (r :: rest) u m =
      firstPass L rest
        { u with RBAC := { u.RBAC with ClusterRoles := u.RBAC.ClusterRoles ++ [role] } }
        ((r.Name, role.Suffix) :: m) := by
  simp only [firstPass]
  rw [if_pos hk, hrole]

/-- The first loop steps over a record whose kind it does not know. -/
theorem firstPass_unknown_kind (L : GoLib) (x : rawResource) (rest : List rawResource)
    (u : Upstream) (m : ManagedRoles) (h1 : x.Kind ≠ "ClusterRole") (h2 : x.Kind ≠ "Role")
    (h3 : x.Kind ≠ "Deployment") (h4 : x.Kind ≠ "Service") :
    firstPass L (x :: rest) u m = firstPass L rest u m := by
  simp only [firstPass]
  rw [if_neg h1, if_neg h2, if_neg h3, if_neg h4]

/-! ## The environment loop -/

theorem foldl_envStep_extraEnv (es : List Value) (u : Upstream) :
    (es.foldl envStep u).Deployment.ExtraEnv =
      u.Deployment.ExtraEnv ++
        (es.filter envKept).map (fun e => { Name := envName e, Value := envValue e }) := by
  induction es generalizing u with
  | nil => simp
  | cons e es ih =>
    rw [List.foldl_cons, ih]
    unfold envStep
    simp only
    by_cases h1 : asString (mapGet (asMap (some e)) "name") = "KUBERNETES_NAMESPACE"
    · have hk : envKept e = false := by simp [envKept, envName, h1]
      simp [h1, List.filter_cons, hk]
    · by_cases h2 : asString (mapGet (asMap (some e)) "name") = "RELATED_IMAGE_KEYCLOAK"
      · have hk : envKept e = false := by simp [envKept, envName, h2]
        simp [h1, h2, List.filter_cons, hk]
      · have hk : envKept e = true := by simp [envKept, envName, h1, h2]
        simp [h1, h2, List.filter_cons, hk, envName, envValue]

theorem foldl_envStep_no_image (es : List Value) (u : Upstream)
    (h : ∀ x ∈ es, envName x ≠ "RELATED_IMAGE_KEYCLOAK") :
    (es.foldl envStep u).KeycloakImage = u.KeycloakImage := by
  induction es generalizing u with
  | nil => rfl
  | cons e es ih =>
    rw [List.foldl_cons, ih _ (fun x hx => h x (List.mem_cons_of_mem _ hx))]
    have h2 : ¬ asString (mapGet (asMap (some e)) "name") = "RELATED_IMAGE_KEYCLOAK" :=
      h e (List.mem_cons_self _ _)
    unfold envStep
    simp only
    split_ifs <;> rfl

/-- The last entry named `RELATED_IMAGE_KEYCLOAK` decides `KeycloakImage`. -/
theorem foldl_envStep_last_image (pre post : List Value) (e : Value) (u : Upstream)
    (he : envName e = "RELATED_IMAGE_KEYCLOAK")
    (hpost : ∀ x ∈ post, envName x ≠ "RELATED_IMAGE_KEYCLOAK") :
    ((pre ++ e :: post).foldl envStep u).KeycloakImage = (splitImage (envValue e)).1 := by
  rw [List.foldl_append, List.foldl_cons, foldl_envStep_no_image post _ hpost]
  have h2 : asString (mapGet (asMap (some e)) "name") = "RELATED_IMAGE_KEYCLOAK" := he
  have h1 : ¬ asString (mapGet (asMap (some e)) "name") = "KUBERNETES_NAMESPACE" := by
    rw [h2]; decide
  unfold envStep
  simp only
  rw [if_neg h1, if_pos h2]
  rfl

/-- What a successful `parseDeployment` does to `ExtraEnv` and `KeycloakImage`: the
environment loop, run on the receiver's values. -/
theorem parseDeployment_ok_env {L : GoLib} {u u1 : Upstream} {r : rawResource}
    (h : parseDeployment L u r = .ok u1) :
    ∃ u0 : Upstream, u0.Deployment.ExtraEnv = u.Deployment.ExtraEnv ∧
      u0.KeycloakImage = u.KeycloakImage ∧ u1 = (deploymentEnv r).foldl envStep u0 := by
  by_cases hc : deploymentContainers r = []
  · rw [parseDeployment_no_containers L u r hc] at h; cases h
  · have hlen : ¬ (deploymentContainers r).length = 0 := by
      simpa [List.length_eq_zero] using hc
    unfold deploymentContainers at hlen
    unfold parseDeployment at h
    simp only [hlen, if_false] at h
    injection h with h
    refine ⟨_, ?_, ?_, h.symm⟩
    · split <;> split <;> rfl
    · split <;> split <;> rfl

theorem parseDeployment_succeeds (L : GoLib) (u : Upstream) (r : rawResource)
    (hc : deploymentContainers r ≠ []) : ∃ u1, parseDeployment L u r = .ok u1 := by
  have hlen : ¬ (deploymentContainers r).length = 0 := by
    simpa [List.length_eq_zero] using hc
  unfold deploymentContainers at hlen
  unfold parseDeployment
  simp only [hlen, if_false]
  exact ⟨_, rfl⟩

theorem firstPass_no_deployment_image {L : GoLib} (rs : List rawResource) {u u1 : Upstream}
    {m m1 : ManagedRoles} (hno : ∀ r ∈ rs, r.Kind ≠ "Deployment")
    (h : firstPass L rs u m = .ok (u1, m1)) :
    u1.KeycloakImage = u.KeycloakImage := by
  induction rs generalizing u m with
  | nil =>
    simp only [firstPass, Except.ok.injEq, Prod.mk.injEq] at h
    obtain ⟨rfl, rfl⟩ := h
    rfl
  | cons r rest ih =>
    have hrest : ∀ x ∈ rest, x.Kind ≠ "Deployment" :=
      fun x hx => hno x (List.mem_cons_of_mem _ hx)
    have hr : r.Kind ≠ "Deployment" := hno r (List.mem_cons_self _ _)
    unfold firstPass at h
    split_ifs at h with h1 h2 h4
    · split at h
      · cases h
      · have e1 := ih hrest h
        exact e1
    · split at h
      · cases h
      · have e1 := ih hrest h
        exact e1
    · have e1 := ih hrest h
      rw [e1]
      unfold parseService
      simp only
      split_ifs <;> rfl
    · exact ih hrest h

/-- With exactly one Deployment record, `KeycloakImage` is the one `parseDeployment` left
when it ran on that record. -/
theorem firstPass_one_deployment_image {L : GoLib} (rs : List rawResource) (d : rawResource)
    {u u1 : Upstream} {m m1 : ManagedRoles}
    (hone : rs.filter (fun r => decide (r.Kind = "Deployment")) = [d])
    (h : firstPass L rs u m = .ok (u1, m1)) :
    ∃ ua ub, parseDeployment L ua d = .ok ub ∧ u1.KeycloakImage = ub.KeycloakImage := by
  induction rs generalizing u m with
  | nil => simp at hone
  | cons r rest ih =>
    by_cases hk : r.Kind = "Deployment"
    · have hc1 : r.Kind ≠ "ClusterRole" := by rw [hk]; decide
      have hc2 : r.Kind ≠ "Role" := by rw [hk]; decide
      simp only [List.filter_cons, hk, decide_True, if_true, List.cons.injEq] at hone
      obtain ⟨rfl, hnone⟩ := hone
      have hrest : ∀ x ∈ rest, x.Kind ≠ "Deployment" := by
        intro x hx hxk
        have : x ∈ rest.filter (fun r => decide (r.Kind = "Deployment")) :=
          List.mem_filter.mpr ⟨hx, by simpa using hxk⟩
        rw [hnone] at this
        cases this
      unfold firstPass at h
      rw [if_neg hc1, if_neg hc2, if_pos hk] at h
      split at h
      · cases h
      · rename_i u2 hdep
        exact ⟨u, u2, hdep, firstPass_no_deployment_image rest hrest h⟩
    · simp only [List.filter_cons, hk, decide_False] at hone
      unfold firstPass at h
      split_ifs at h with h1 h2 h4
      · split at h
        · cases h
        · exact ih (by simpa using hone) h
      · split at h
        · cases h
        · exact ih (by simpa using hone) h
      · exact ih (by simpa using hone) h
      · exact ih (by simpa using hone) h

/-- The second loop steps over everything that is not a binding record. -/
theorem secondPass_append_unknown (m : ManagedRoles) (pre post : List rawResource)
    (x : rawResource) (u : Upstream) (h1 : x.Kind ≠ "ClusterRoleBinding")
    (h2 : x.Kind ≠ "RoleBinding") :
    secondPass m (pre ++ x :: post) u = secondPass m (pre ++ post) u := by
  rw [secondPass_eq, secondPass_eq]
  simp [List.filter_append, List.filter_cons, h1, h2]

theorem firstPass_append_unknown (L : GoLib) (pre post : List rawResource) (x : rawResource)
    (u : Upstream) (m : ManagedRoles) (h1 : x.Kind ≠ "ClusterRole") (h2 : x.Kind ≠ "Role")
    (h3 : x.Kind ≠ "Deployment") (h4 : x.Kind ≠ "Service") :
    firstPass L (pre ++ x :: post) u m = firstPass L (pre ++ post) u m := by
  rw [firstPass_append, firstPass_append]
  split
  · rfl
  · exact firstPass_unknown_kind L x post _ _ h1 h2 h3 h4

/-! ## Splitting and joining lines -/

theorem splitChars_ne_nil (sep : Char) (cs : List Char) : splitChars sep cs ≠ [] := by
  cases cs with
  | nil => simp [splitChars]
  | cons c cs =>
    simp only [splitChars]
    split_ifs
    · simp
    · split <;> simp

theorem splitChars_no_sep (sep : Char) (cs : List Char) :
    ∀ l ∈ splitChars sep cs, sep ∉ l := by
  induction cs with
  | nil => simp [splitChars]
  | cons c cs ih =>
    simp only [splitChars]
    split_ifs with hc
    · intro l hl
      rcases List.mem_cons.mp hl with rfl | hl
      · simp
      · exact ih l hl
    · split
      · rename_i hnil
        exact absurd hnil (splitChars_ne_nil sep cs)
      · rename_i l0 ls heq
        rw [heq] at ih
        intro l hl
        rcases List.mem_cons.mp hl with rfl | hl
        · have := ih l0 (List.mem_cons_self _ _)
          simp only [List.mem_cons, not_or]
          exact ⟨fun h => hc h.symm, this⟩
        · exact ih l (List.mem_cons_of_mem _ hl)

theorem splitChars_cons (sep c : Char) (cs : List Char) :
    splitChars sep (c :: cs) =
      if c = sep then [] :: splitChars sep cs
      else
        match splitChars sep cs with
        | [] => [[c]]
        | l :: ls => (c :: l) :: ls := rfl

theorem splitChars_of_not_mem (sep : Char) (a : List Char) (h : sep ∉ a) :
    splitChars sep a = [a] := by
  induction a with
  | nil => rfl
  | cons c cs ih =>
    simp only [List.mem_cons, not_or] at h
    simp only [splitChars]
    rw [if_neg (fun hc => h.1 hc.symm), ih h.2]

theorem splitChars_append_sep (sep : Char) (a rest : List Char) (h : sep ∉ a) :
    splitChars sep (a ++ sep :: rest) = a :: splitChars sep rest := by
  induction a with
  | nil => simp [splitChars]
  | cons c cs ih =>
    simp only [List.mem_cons, not_or] at h
    rw [List.cons_append, splitChars_cons, if_neg (fun hc => h.1 hc.symm), ih h.2]

/-- Splitting undoes joining when no line holds a newline. -/
theorem split_join (ls : List String) (hne : ls ≠ [])
    (h : ∀ l ∈ ls, '\n' ∉ l.data) : split (join ls "\n") '\n' = ls := by
  induction ls with
  | nil => exact absurd rfl hne
  | cons a rest ih =>
    cases rest with
    | nil =>
      simp only [join, split]
      rw [splitChars_of_not_mem _ _ (h a (List.mem_cons_self _ _))]
      rfl
    | cons b rest2 =>
      have ha := h a (List.mem_cons_self _ _)
      have ih1 := ih (by simp) (fun l hl => h l (List.mem_cons_of_mem _ hl))
      simp only [split] at ih1 ⊢
      have hd : (join (a :: b :: rest2) "\n").data =
          a.data ++ '\n' :: (join (b :: rest2) "\n").data := by
        simp [join, String.data_append]
      rw [hd, splitChars_append_sep _ _ _ ha, List.map_cons, ih1]

theorem split_ne_nil (s : String) (sep : Char) : split s sep ≠ [] := by
  simp [split, splitChars_ne_nil]

theorem split_no_sep (s : String) (sep : Char) : ∀ l ∈ split s sep, sep ∉ l.data := by
  intro l hl
  simp only [split, List.mem_map] at hl
  obtain ⟨cs, hcs, rfl⟩ := hl
  exact splitChars_no_sep sep s.data cs hcs

theorem repeatString_space_data (n : Nat) :
    (repeatString " " n).data = List.replicate n ' ' := by
  induction n with
  | zero => rfl
  | succ n ih =>
    simp only [repeatString, String.data_append, ih, List.replicate_succ]
    rfl

/-- One line of `indent`, written out: an empty line stays empty, any other line gets `n`
spaces in front. -/
theorem indent_line_eq (n : Nat) (line : String) :
    (if line ≠ "" then repeatString " " n ++ line else line) =
      if line = "" then "" else ⟨List.replicate n ' ' ++ line.data⟩ := by
  by_cases h : line = ""
  · simp [h]
  · rw [if_pos h, if_neg h]
    apply String.ext
    rw [String.data_append, repeatString_space_data]

/-! ## Executing the repeated-block templates -/

theorem join_cons_cons (a b : String) (rest : List String) (sep : String) :
    join (a :: b :: rest) sep = a ++ sep ++ join (b :: rest) sep := rfl

/-- A loop whose body writes the separator before every entry but the first writes the
blocks joined by the separator. -/
theorem rangeFrom_join {α : Type} (f : Nat → α → String) (block : α → String)
    (hf : ∀ i x, i ≠ 0 → f i x = "\n---\n" ++ block x) (b0 : String) (i : Nat) (hi : i ≠ 0)
    (xs : List α) :
    b0 ++ rangeFrom f i xs = join (b0 :: xs.map block) "\n---\n" := by
  induction xs generalizing b0 i with
  | nil => simp [rangeFrom, join]
  | cons x xs ih =>
    rw [List.map_cons, join_cons_cons, ← ih (block x) (i + 1) (Nat.succ_ne_zero i)]
    simp only [rangeFrom, hf i x hi, String.append_assoc]

theorem rangeFrom_blocks {α : Type} (f : Nat → α → String) (block : α → String)
    (hf0 : ∀ x, f 0 x = "\n" ++ block x)
    (hf : ∀ i x, i ≠ 0 → f i x = "\n---\n" ++ block x) (x0 : α) (rest : List α) :
    rangeFrom f 0 (x0 :: rest) = "\n" ++ join ((x0 :: rest).map block) "\n---\n" := by
  rw [List.map_cons, ← rangeFrom_join f block hf (block x0) 1 Nat.one_ne_zero rest]
  simp only [rangeFrom, hf0, String.append_assoc]

theorem renderClusterRoleTmpl_eq (u : Upstream) (x0 : RBACRole) (rest : List RBACRole)
    (hl : u.RBAC.ClusterRoles = x0 :: rest) :
    renderClusterRoleTmpl u =
      "\n" ++ join ((x0 :: rest).map clusterRoleBlock) "\n---\n" ++ "\n" := by
  unfold renderClusterRoleTmpl
  rw [hl, rangeFrom_blocks _ clusterRoleBlock ?_ ?_ x0 rest]
  · rfl
  · intro x
    have e1 : trimRightSpace "\n" = "" := by decide
    simp only [e1, clusterRoleBlock, fullnameLine, ne_eq, not_true_eq_false, if_false,
      String.append_empty, String.empty_append]
    apply String.ext
    simp only [String.data_append, List.append_assoc]
    rfl
  · intro i x hi
    have e1 : trimRightSpace "\n" = "" := by decide
    have e2 : trimRightSpace "\n---\n" = "\n---" := by decide
    simp only [e1, e2, hi, clusterRoleBlock, fullnameLine, ne_eq, not_false_eq_true, if_true,
      String.append_empty, String.empty_append]
    apply String.ext
    simp only [String.data_append, List.append_assoc]
    rfl

theorem renderRoleTmpl_eq (u : Upstream) (x0 : RBACRole) (rest : List RBACRole)
    (hl : u.RBAC.Roles = x0 :: rest) :
    renderRoleTmpl u = "\n" ++ join ((x0 :: rest).map roleBlock) "\n---\n" ++ "\n" := by
  unfold renderRoleTmpl
  rw [hl, rangeFrom_blocks _ roleBlock ?_ ?_ x0 rest]
  · rfl
  · intro x
    have e1 : trimRightSpace "\n" = "" := by decide
    simp only [e1, roleBlock, fullnameLine, ne_eq, not_true_eq_false, if_false,
      String.append_empty, String.empty_append]
    apply String.ext
    simp only [String.data_append, List.append_assoc]
    rfl
  · intro i x hi
    have e1 : trimRightSpace "\n" = "" := by decide
    have e2 : trimRightSpace "\n---\n" = "\n---" := by decide
    simp only [e1, e2, hi, roleBlock, fullnameLine, ne_eq, not_false_eq_true, if_true,
      String.append_empty, String.empty_append]
    apply String.ext
    simp only [String.data_append, List.append_assoc]
    rfl

theorem renderClusterRoleBindingTmpl_eq (u : Upstream) (x0 : RBACBinding)
    (rest : List RBACBinding) (hl : u.RBAC.ClusterRoleBindings = x0 :: rest) :
    renderClusterRoleBindingTmpl u =
      "\n" ++ join ((x0 :: rest).map clusterRoleBindingBlock) "\n---\n" ++ "\n" := by
  have e1 : trimRightSpace "\n" = "" := by decide
  have e2 : trimRightSpace "\n---\n" = "\n---" := by decide
  have e3 : trimRightSpace "\n  apiGroup: rbac.authorization.k8s.io\n" =
      "\n  apiGroup: rbac.authorization.k8s.io" := by decide
  have e4 : trimRightSpace "\nsubjects:\n  - kind: ServiceAccount\n    name: \x7b\x7b include \"keycloak-operator.serviceAccountName\" . \x7d\x7d\n    namespace: \x7b\x7b .Release.Namespace \x7d\x7d\n" =
      "\nsubjects:\n  - kind: ServiceAccount\n    name: \x7b\x7b include \"keycloak-operator.serviceAccountName\" . \x7d\x7d\n    namespace: \x7b\x7b .Release.Namespace \x7d\x7d" := by
    decide
  unfold renderClusterRoleBindingTmpl
  rw [hl, rangeFrom_blocks _ clusterRoleBindingBlock ?_ ?_ x0 rest]
  · rfl
  · intro x
    cases hb : x.IsBuiltinRole <;>
    · simp only [e1, e3, e4, hb, clusterRoleBindingBlock, roleRefNameLine, fullnameLine, ne_eq,
        not_true_eq_false, if_false, if_true, Bool.false_eq_true, String.append_empty,
        String.empty_append]
      apply String.ext
      simp only [String.data_append, List.append_assoc]
      rfl
  · intro i x hi
    cases hb : x.IsBuiltinRole <;>
    · simp only [e1, e2, e3, e4, hi, hb, clusterRoleBindingBlock, roleRefNameLine, fullnameLine,
        ne_eq, not_false_eq_true, if_false, if_true, Bool.false_eq_true, String.append_empty,
        String.empty_append]
      apply String.ext
      simp only [String.data_append, List.append_assoc]
      rfl

theorem renderRoleBindingTmpl_eq (u : Upstream) (x0 : RBACBinding)
    (rest : List RBACBinding) (hl : u.RBAC.RoleBindings = x0 :: rest) :
    renderRoleBindingTmpl u =
      "\n" ++ join ((x0 :: rest).map roleBindingBlock) "\n---\n" ++ "\n" := by
  have e1 : trimRightSpace "\n" = "" := by decide
  have e2 : trimRightSpace "\n---\n" = "\n---" := by decide
  have e3 : trimRightSpace "\n  labels:\n    \x7b\x7b- include \"keycloak-operator.labels\" . | nindent 4 \x7d\x7d\nroleRef:\n" =
      "\n  labels:\n    \x7b\x7b- include \"keycloak-operator.labels\" . | nindent 4 \x7d\x7d\nroleRef:" := by
    decide
  have e4 : trimRightSpace "\nsubjects:\n  - kind: ServiceAccount\n    name: \x7b\x7b include \"keycloak-operator.serviceAccountName\" . \x7d\x7d\n" =
      "\nsubjects:\n  - kind: ServiceAccount\n    name: \x7b\x7b include \"keycloak-operator.serviceAccountName\" . \x7d\x7d" := by
    decide
  unfold renderRoleBindingTmpl
  rw [hl, rangeFrom_blocks _ roleBindingBlock ?_ ?_ x0 rest]
  · rfl
  · intro x
    cases hb : x.IsBuiltinRole <;> by_cases hk : x.RoleRefKind = "Role" <;>
    · simp only [e1, e3, e4, hb, hk, roleBindingBlock, roleBindingKindText, roleRefNameLine,
        fullnameLine, ne_eq, not_true_eq_false, if_false, if_true, Bool.false_eq_true,
        String.append_empty, String.empty_append]
      apply String.ext
      simp only [String.data_append, List.append_assoc]
      rfl
  · intro i x hi
    cases hb : x.IsBuiltinRole <;> by_cases hk : x.RoleRefKind = "Role" <;>
    · simp only [e1, e2, e3, e4, hi, hb, hk, roleBindingBlock, roleBindingKindText,
        roleRefNameLine, fullnameLine, ne_eq, not_false_eq_true, if_false, if_true,
        Bool.false_eq_true, String.append_empty, String.empty_append]
      apply String.ext
      simp only [String.data_append, List.append_assoc]
      rfl

/-- In a successful build a managed binding carries the suffix of every output role that
has the referenced name. -/
theorem buildUpstream_managed_suffix {L : GoLib} {rs : List rawResource} {u : Upstream}
    (h : buildUpstream L rs = .ok u) (b : RBACBinding)
    (hb : b ∈ u.RBAC.ClusterRoleBindings ∨ b ∈ u.RBAC.RoleBindings)
    (hm : b.IsBuiltinRole = false) (role : RBACRole)
    (hr : role ∈ u.RBAC.ClusterRoles ∨ role ∈ u.RBAC.Roles)
    (hn : role.OriginalName = b.RoleRefName) : b.RoleSuffix = role.Suffix := by
  obtain ⟨m, hlook, hcrb, hrb⟩ := buildUpstream_bindings h
  obtain ⟨hsuf, _⟩ := buildUpstream_roles h
  have hres : ∃ r : rawResource, b = parseRBACBinding r m := by
    rcases hb with hb | hb
    · rw [hcrb] at hb
      obtain ⟨r, _, hr⟩ := List.mem_map.mp hb
      exact ⟨r, hr.symm⟩
    · rw [hrb] at hb
      obtain ⟨r, _, hr⟩ := List.mem_map.mp hb
      exact ⟨r, hr.symm⟩
  obtain ⟨r, rfl⟩ := hres
  have hl := hlook (bindingRoleRefName r)
  have hflag : (parseRBACBinding r m).IsBuiltinRole =
      !(List.lookup (bindingRoleRefName r) m).isSome := rfl
  have hsfx : (parseRBACBinding r m).RoleSuffix =
      (List.lookup (bindingRoleRefName r) m).getD "" := rfl
  have hname : (parseRBACBinding r m).RoleRefName = bindingRoleRefName r := rfl
  rw [hflag] at hm
  rw [hsfx, hsuf role hr, hn, hname]
  split_ifs at hl with hex
  · rw [hl]; rfl
  · rw [hl] at hm
    simp at hm

/-! ## The last colon -/

/-- A list that holds `c` splits at the last `c`. -/
theorem exists_last_occurrence (c : Char) (l : List Char) (h : c ∈ l) :
    ∃ a t, l = a ++ c :: t ∧ c ∉ t := by
  induction l with
  | nil => cases h
  | cons x xs ih =>
    by_cases hxs : c ∈ xs
    · obtain ⟨a, t, hl, ht⟩ := ih hxs
      exact ⟨x :: a, t, by rw [hl, List.cons_append], ht⟩
    · rcases List.mem_cons.mp h with rfl | h1
      · exact ⟨[], xs, rfl, hxs⟩
      · exact absurd h1 hxs

/-! ## The rule table in any order -/

/-- No name begins with two different prefixes of the rule table. -/
theorem replacements_exclusive (name : String) (r1 r2 : String × String)
    (h1 : r1 ∈ replacements) (h2 : r2 ∈ replacements)
    (m1 : hasPrefix name r1.1 = true) (m2 : hasPrefix name r2.1 = true) : r1 = r2 := by
  have e12 : ∀ s : String,
      hasPrefix ("keycloak-operator-" ++ s) "keycloakrealmimportcontroller-" = false := by
    intro s; simp [hasPrefix, String.data_append, List.isPrefixOf]
  have e13 : ∀ s : String,
      hasPrefix ("keycloak-operator-" ++ s) "keycloakcontroller-" = false := by
    intro s; simp [hasPrefix, String.data_append, List.isPrefixOf]
  have e21 : ∀ s : String,
      hasPrefix ("keycloakrealmimportcontroller-" ++ s) "keycloak-operator-" = false := by
    intro s; simp [hasPrefix, String.data_append, List.isPrefixOf]
  have e23 : ∀ s : String,
      hasPrefix ("keycloakrealmimportcontroller-" ++ s) "keycloakcontroller-" = false := by
    intro s; simp [hasPrefix, String.data_append, List.isPrefixOf]
  have e31 : ∀ s : String,
      hasPrefix ("keycloakcontroller-" ++ s) "keycloak-operator-" = false := by
    intro s; simp [hasPrefix, String.data_append, List.isPrefixOf]
  have e32 : ∀ s : String,
      hasPrefix ("keycloakcontroller-" ++ s) "keycloakrealmimportcontroller-" = false := by
    intro s; simp [hasPrefix, String.data_append, List.isPrefixOf]
  simp only [replacements, List.mem_cons, List.mem_singleton, List.not_mem_nil, or_false] at h1 h2
  obtain ⟨s, rfl⟩ := hasPrefix_elim m1
  rcases h1 with rfl | rfl | rfl <;> rcases h2 with rfl | rfl | rfl <;>
    first
    | rfl
    | (simp only [e12, e13, e21, e23, e31, e32] at m2; cases m2)

/-- Without a matching rule the loop returns the name. -/
theorem deriveSuffixWith_no_match (t : List (String × String)) (name : String)
    (h : ∀ r ∈ t, hasPrefix name r.1 = false) : deriveSuffixWith t name = name := by
  induction t with
  | nil => rfl
  | cons r rs ih =>
    simp only [deriveSuffixWith]
    rw [if_neg (by simp [h r (List.mem_cons_self _ _)])]
    exact ih (fun x hx => h x (List.mem_cons_of_mem _ hx))

/-- When a single rule of the table matches, the loop applies it, wherever it stands. -/
theorem deriveSuffixWith_unique_match (t : List (String × String)) (name : String)
    (r : String × String) (hr : r ∈ t) (hm : hasPrefix name r.1 = true)
    (hu : ∀ x ∈ t, hasPrefix name x.1 = true → x = r) :
    deriveSuffixWith t name = trimPrefix (r.2 ++ trimPrefix name r.1) "-" := by
  induction t with
  | nil => cases hr
  | cons x xs ih =>
    simp only [deriveSuffixWith]
    by_cases hx : hasPrefix name x.1 = true
    · rw [if_pos hx, hu x (List.mem_cons_self _ _) hx]
    · rw [if_neg hx]
      rcases List.mem_cons.mp hr with rfl | hr1
      · exact absurd hm hx
      · exact ih hr1 (fun y hy => hu y (List.mem_cons_of_mem _ hy))

/-! ## Indenting twice -/

/-- Joining undoes splitting. -/
theorem join_splitChars_data (cs : List Char) :
    (join ((splitChars '\n' cs).map String.mk) "\n").data = cs := by
  induction cs with
  | nil => rfl
  | cons c cs ih =>
    rw [splitChars_cons]
    by_cases hc : c = '\n'
    · rw [if_pos hc]
      cases hsp : splitChars '\n' cs with
      | nil => exact absurd hsp (splitChars_ne_nil _ _)
      | cons l ls =>
        rw [hsp] at ih
        rw [List.map_cons, List.map_cons, join_cons_cons, String.data_append,
          String.data_append, ← List.map_cons, ih, hc]
        rfl
    · rw [if_neg hc]
      cases hsp : splitChars '\n' cs with
      | nil => exact absurd hsp (splitChars_ne_nil _ _)
      | cons l ls =>
        rw [hsp] at ih
        simp only
        cases ls with
        | nil =>
          simp only [List.map_cons, List.map_nil, join] at ih ⊢
          rw [ih]
        | cons l2 ls2 =>
          simp only [List.map_cons, join_cons_cons, String.data_append] at ih ⊢
          rw [← ih]
          simp

theorem join_split (s : String) : join (split s '\n') "\n" = s := by
  apply String.ext
  exact join_splitChars_data s.data

/-- The lines of an indented text are the indented lines of the text. -/
theorem split_indent (n : Nat) (s : String) :
    split (indent n s) '\n' =
      (split s '\n').map
        (fun line => if line ≠ "" then repeatString " " n ++ line else line) := by
  unfold indent
  simp only
  apply split_join
  · simpa using split_ne_nil s '\n'
  · intro l hl
    obtain ⟨line, hline, rfl⟩ := List.mem_map.mp hl
    have hno := split_no_sep s '\n' line hline
    split_ifs
    · rw [String.data_append, repeatString_space_data]
      simp only [List.mem_append, not_or]
      exact ⟨by simp, hno⟩
    · exact hno

theorem repeatString_add (s : String) (m n : Nat) :
    repeatString s m ++ repeatString s n = repeatString s (m + n) := by
  induction m with
  | zero =>
    rw [Nat.zero_add]
    show "" ++ repeatString s n = repeatString s n
    exact String.empty_append _
  | succ m ih =>
    rw [Nat.succ_add]
    simp only [repeatString, String.append_assoc, ih]

theorem append_ne_empty_of_right (a b : String) (h : b ≠ "") : a ++ b ≠ "" := by
  intro hab
  apply h
  have hd : (a ++ b).data = [] := by rw [hab]
  rw [String.data_append] at hd
  apply String.ext
  exact (List.append_eq_nil.mp hd).2

/-- Padding a line by `n` and then by `m` columns pads it by `m + n` columns. -/
theorem indent_line_twice (m n : Nat) (line : String) :
    (fun l : String => if l ≠ "" then repeatString " " m ++ l else l)
        (if line ≠ "" then repeatString " " n ++ line else line) =
      if line ≠ "" then repeatString " " (m + n) ++ line else line := by
  by_cases h : line = ""
  · simp [h]
  · simp only [ne_eq, h, not_false_eq_true, if_true]
    rw [if_pos (append_ne_empty_of_right _ _ h), ← String.append_assoc, repeatString_add]

/-! ## The claims -/

/-- C1: in a successful build, a binding is marked managed (`IsBuiltinRole = false`)
exactly when a ClusterRole or Role record of the input carries the referenced name; then
the output holds a role of that name, and the binding's `RoleSuffix` is the `Suffix` of
every output role whose `OriginalName` is that name. -/
theorem buildUpstream_binding_managed_iff (L : GoLib) (rs : List rawResource) (u : Upstream)
    (h : buildUpstream L rs = .ok u) (b : RBACBinding)
    (hb : b ∈ u.RBAC.ClusterRoleBindings ∨ b ∈ u.RBAC.RoleBindings) :
    (b.IsBuiltinRole = false ↔
      ∃ r ∈ rs, (r.Kind = "ClusterRole" ∨ r.Kind = "Role") ∧ r.Name = b.RoleRefName) ∧
    (b.IsBuiltinRole = false →
      (∃ role, (role ∈ u.RBAC.ClusterRoles ∨ role ∈ u.RBAC.Roles) ∧
        role.OriginalName = b.RoleRefName) ∧
      ∀ role, (role ∈ u.RBAC.ClusterRoles ∨ role ∈ u.RBAC.Roles) →
        role.OriginalName = b.RoleRefName → b.RoleSuffix = role.Suffix) := by
  obtain ⟨m, hm, hcrb, hrb⟩ := buildUpstream_bindings h
  obtain ⟨hsuf, hex⟩ := buildUpstream_roles h
  have hres : ∃ r : rawResource, b = parseRBACBinding r m := by
    rcases hb with hb | hb
    · rw [hcrb] at hb
      obtain ⟨r, _, hr⟩ := List.mem_map.mp hb
      exact ⟨r, hr.symm⟩
    · rw [hrb] at hb
      obtain ⟨r, _, hr⟩ := List.mem_map.mp hb
      exact ⟨r, hr.symm⟩
  obtain ⟨r, rfl⟩ := hres
  have hl := hm (parseRBACBinding r m).RoleRefName
  have hname : (parseRBACBinding r m).RoleRefName = bindingRoleRefName r := rfl
  have hflag : (parseRBACBinding r m).IsBuiltinRole =
      !(List.lookup (bindingRoleRefName r) m).isSome := rfl
  have hsfx : (parseRBACBinding r m).RoleSuffix =
      (List.lookup (bindingRoleRefName r) m).getD "" := rfl
  rw [hname] at hl ⊢
  by_cases hex1 : ∃ r1 ∈ rs, (r1.Kind = "ClusterRole" ∨ r1.Kind = "Role") ∧
      r1.Name = bindingRoleRefName r
  · rw [if_pos hex1] at hl
    rw [hflag, hsfx, hl]
    refine ⟨⟨fun _ => hex1, fun _ => rfl⟩, fun _ => ⟨?_, ?_⟩⟩
    · obtain ⟨r1, hr1, hk1, hn1⟩ := hex1
      obtain ⟨role, hrole, hro⟩ := hex r1 hr1 hk1
      exact ⟨role, hrole, hro.trans hn1⟩
    · intro role hrole hro
      rw [hsuf role hrole, hro]
      rfl
  · rw [if_neg hex1] at hl
    rw [hflag, hl]
    refine ⟨⟨fun hf => ?_, fun hf => absurd hf hex1⟩, fun hf => ?_⟩
    · simp at hf
    · simp at hf

theorem buildUpstream_binding_managed_iff_witness :
    (exampleManagedBinding.IsBuiltinRole = false ↔
      ∃ r ∈ exampleManifest, (r.Kind = "ClusterRole" ∨ r.Kind = "Role") ∧
        r.Name = exampleManagedBinding.RoleRefName) ∧
    (exampleManagedBinding.IsBuiltinRole = false →
      (∃ role, (role ∈ exampleUpstream.RBAC.ClusterRoles ∨ role ∈ exampleUpstream.RBAC.Roles) ∧
        role.OriginalName = exampleManagedBinding.RoleRefName) ∧
      ∀ role, (role ∈ exampleUpstream.RBAC.ClusterRoles ∨ role ∈ exampleUpstream.RBAC.Roles) →
        role.OriginalName = exampleManagedBinding.RoleRefName →
        exampleManagedBinding.RoleSuffix = role.Suffix) :=
  buildUpstream_binding_managed_iff sampleLib exampleManifest exampleUpstream
    exampleManifest_build exampleManagedBinding (Or.inl (by decide))

/-- C2: in a successful build, a ClusterRoleBinding or RoleBinding record whose roleRef
name is the name of no ClusterRole or Role record yields, at its place in the output list
of its kind, a binding marked builtin that keeps the roleRef name and kind as read and has
an empty `RoleSuffix`: the two output lists are the binding records of their kind mapped,
in order, through one resolution function `f`, and `f r` is that binding. -/
theorem buildUpstream_unmanaged_binding_builtin (L : GoLib) (rs : List rawResource)
    (u : Upstream) (h : buildUpstream L rs = .ok u) (r : rawResource)
    (habs : ∀ ro ∈ rs, (ro.Kind = "ClusterRole" ∨ ro.Kind = "Role") →
      ro.Name ≠ bindingRoleRefName r) :
    ∃ f : rawResource → RBACBinding,
      u.RBAC.ClusterRoleBindings =
        (rs.filter (fun x => decide (x.Kind = "ClusterRoleBinding"))).map f ∧
      u.RBAC.RoleBindings = (rs.filter (fun x => decide (x.Kind = "RoleBinding"))).map f ∧
      f r =
        { OriginalName := r.Name
          Suffix := deriveSuffix r.Name
          RoleRefKind := bindingRoleRefKind r
          RoleRefName := bindingRoleRefName r
          RoleSuffix := ""
          IsBuiltinRole := true } := by
  obtain ⟨m, hm, hcrb, hrb⟩ := buildUpstream_bindings h
  refine ⟨fun x => parseRBACBinding x m, hcrb, hrb, ?_⟩
  have hl := hm (bindingRoleRefName r)
  rw [if_neg (fun ⟨ro, hro, hk, hn⟩ => habs ro hro hk hn)] at hl
  show parseRBACBinding r m = _
  unfold parseRBACBinding
  unfold bindingRoleRefName at hl
  simp only [hl]
  rfl

theorem buildUpstream_unmanaged_binding_builtin_witness :
    ∃ f : rawResource → RBACBinding,
      exampleUpstream.RBAC.ClusterRoleBindings =
        (exampleManifest.filter (fun x => decide (x.Kind = "ClusterRoleBinding"))).map f ∧
      exampleUpstream.RBAC.RoleBindings =
        (exampleManifest.filter (fun x => decide (x.Kind = "RoleBinding"))).map f ∧
      f exampleViewBinding =
        { OriginalName := "keycloak-operator-view"
          Suffix := deriveSuffix "keycloak-operator-view"
          RoleRefKind := "ClusterRole"
          RoleRefName := "view"
          RoleSuffix := ""
          IsBuiltinRole := true } :=
  buildUpstream_unmanaged_binding_builtin sampleLib exampleManifest exampleUpstream
    exampleManifest_build exampleViewBinding (by decide)

/-- C3: binding resolution does not depend on the order of the records.  When two lists are
permutations of one another and `buildUpstream` succeeds on both, one resolution function
`f` gives the bindings of both results: each output list is the binding records of its
kind, in the order of that input, mapped through `f`; so a binding record resolves to the
same `RBACBinding` wherever it stands relative to the role it refers to. -/
theorem buildUpstream_binding_order_independent (L : GoLib) (rs1 rs2 : List rawResource)
    (u1 u2 : Upstream) (hp : rs1.Perm rs2)
    (h1 : buildUpstream L rs1 = .ok u1) (h2 : buildUpstream L rs2 = .ok u2) :
    ∃ f : rawResource → RBACBinding,
      u1.RBAC.ClusterRoleBindings =
        (rs1.filter (fun x => decide (x.Kind = "ClusterRoleBinding"))).map f ∧
      u1.RBAC.RoleBindings = (rs1.filter (fun x => decide (x.Kind = "RoleBinding"))).map f ∧
      u2.RBAC.ClusterRoleBindings =
        (rs2.filter (fun x => decide (x.Kind = "ClusterRoleBinding"))).map f ∧
      u2.RBAC.RoleBindings = (rs2.filter (fun x => decide (x.Kind = "RoleBinding"))).map f := by
  obtain ⟨m1, hm1, hcrb1, hrb1⟩ := buildUpstream_bindings h1
  obtain ⟨m2, hm2, hcrb2, hrb2⟩ := buildUpstream_bindings h2
  have hsame : ∀ n, List.lookup n m2 = List.lookup n m1 := by
    intro n
    rw [hm1 n, hm2 n]
    have hiff : (∃ r ∈ rs2, (r.Kind = "ClusterRole" ∨ r.Kind = "Role") ∧ r.Name = n) ↔
        (∃ r ∈ rs1, (r.Kind = "ClusterRole" ∨ r.Kind = "Role") ∧ r.Name = n) :=
      ⟨fun ⟨r, hr, hk⟩ => ⟨r, hp.mem_iff.mpr hr, hk⟩,
       fun ⟨r, hr, hk⟩ => ⟨r, hp.mem_iff.mp hr, hk⟩⟩
    simp only [hiff]
  have hfun : (fun x => parseRBACBinding x m2) = (fun x => parseRBACBinding x m1) := by
    funext x
    simp only [parseRBACBinding, hsame]
  refine ⟨fun x => parseRBACBinding x m1, hcrb1, hrb1, ?_, ?_⟩
  · rw [hcrb2, hfun]
  · rw [hrb2, hfun]

theorem buildUpstream_binding_order_independent_witness :
    ∃ f : rawResource → RBACBinding,
      exampleUpstream.RBAC.ClusterRoleBindings =
        (exampleManifest.filter (fun x => decide (x.Kind = "ClusterRoleBinding"))).map f ∧
      exampleUpstream.RBAC.RoleBindings =
        (exampleManifest.filter (fun x => decide (x.Kind = "RoleBinding"))).map f ∧
      exampleUpstream.RBAC.ClusterRoleBindings =
        (exampleManifest.reverse.filter (fun x => decide (x.Kind = "ClusterRoleBinding"))).map f ∧
      exampleUpstream.RBAC.RoleBindings =
        (exampleManifest.reverse.filter (fun x => decide (x.Kind = "RoleBinding"))).map f :=
  buildUpstream_binding_order_independent sampleLib exampleManifest exampleManifest.reverse
    exampleUpstream exampleUpstream (List.reverse_perm exampleManifest).symm
    exampleManifest_build exampleManifest_reverse_build

/-- C4: a model returned by `buildUpstream` has a non-empty `AppVersion`; when the input
holds exactly one Deployment record, `AppVersion` and `OperatorImage` of the model are the
tag and the repository `splitImage` gives for the image of that record's first container;
and a single Deployment whose image splits to an empty tag, as an image without a colon or
with a trailing colon does, makes `buildUpstream` fail. -/
theorem buildUpstream_appVersion (L : GoLib) :
    (∀ rs u, buildUpstream L rs = .ok u → u.AppVersion ≠ "") ∧
    (∀ rs d u, rs.filter (fun r => decide (r.Kind = "Deployment")) = [d] →
      buildUpstream L rs = .ok u →
      u.AppVersion = (splitImage (deploymentImage d)).2 ∧
      u.OperatorImage = (splitImage (deploymentImage d)).1) ∧
    (∀ rs d, rs.filter (fun r => decide (r.Kind = "Deployment")) = [d] →
      (splitImage (deploymentImage d)).2 = "" → ∃ e, buildUpstream L rs = .error e) ∧
    (∀ s : String, (':' ∉ s.data → (splitImage s).2 = "") ∧ (splitImage (s ++ ":")).2 = "") := by
  have hone : ∀ rs d u, rs.filter (fun r => decide (r.Kind = "Deployment")) = [d] →
      buildUpstream L rs = .ok u →
      u.AppVersion = (splitImage (deploymentImage d)).2 ∧
      u.OperatorImage = (splitImage (deploymentImage d)).1 := by
    intro rs d u hf h
    obtain ⟨u1, m, hfp, rfl, _⟩ := buildUpstream_ok h
    rw [secondPass_eq]
    obtain ⟨e1, e2⟩ := firstPass_one_deployment rs d hf hfp
    exact ⟨e1, e2⟩
  refine ⟨?_, hone, ?_, ?_⟩
  · intro rs u h
    obtain ⟨_, _, _, _, hv⟩ := buildUpstream_ok h
    exact hv
  · intro rs d hf htag
    rcases except_cases (buildUpstream L rs) with he | ⟨u, hu⟩
    · exact he
    · obtain ⟨_, _, _, _, hv⟩ := buildUpstream_ok hu
      exact absurd ((hone rs d u hf hu).1.trans htag) hv
  · intro s
    constructor
    · intro hs
      have := (lastIndex_eq_neg_one_iff ':' s.data).mpr hs
      simp [splitImage, this]
    · have hd : (s ++ ":").data = s.data ++ ':' :: [] := by simp [String.data_append]
      have hi := lastIndex_append_cons ':' s.data [] (by simp)
      have hne : ((s.data.length : Nat) : Int) ≠ -1 := by omega
      simp only [splitImage, hd, hi, hne, ne_eq, not_false_eq_true, if_true, Int.toNat_ofNat,
        drop_length_succ_append_cons]

theorem buildUpstream_appVersion_witness :
    exampleUpstream.AppVersion ≠ "" ∧
    (exampleUpstream.AppVersion = (splitImage (deploymentImage exampleDeployment)).2 ∧
      exampleUpstream.OperatorImage = (splitImage (deploymentImage exampleDeployment)).1) ∧
    (∃ e, buildUpstream sampleLib [exampleService, untaggedDeployment] = .error e) :=
  ⟨(buildUpstream_appVersion sampleLib).1 exampleManifest exampleUpstream exampleManifest_build,
   (buildUpstream_appVersion sampleLib).2.1 exampleManifest exampleDeployment exampleUpstream
     rfl exampleManifest_build,
   (buildUpstream_appVersion sampleLib).2.2.1 [exampleService, untaggedDeployment]
     untaggedDeployment rfl (by decide)⟩

/-- C5: on a list with no record of kind Deployment, `buildUpstream` returns an error and
no model. -/
theorem buildUpstream_no_deployment_fails (L : GoLib) (rs : List rawResource)
    (hno : ∀ r ∈ rs, r.Kind ≠ "Deployment") :
    ∃ e, buildUpstream L rs = .error e := by
  rcases except_cases (buildUpstream L rs) with he | ⟨u, hu⟩
  · exact he
  · obtain ⟨u1, m, hfp, rfl, hv⟩ := buildUpstream_ok hu
    rw [secondPass_eq] at hv
    exact absurd (firstPass_no_deployment rs hno hfp).1 hv

theorem buildUpstream_no_deployment_fails_witness :
    ∃ e, buildUpstream sampleLib
      [exampleClusterRoleBinding, exampleService, exampleClusterRole] = .error e :=
  buildUpstream_no_deployment_fails sampleLib
    [exampleClusterRoleBinding, exampleService, exampleClusterRole] (by decide)

/-- C6: on a list holding a Deployment record whose `spec.template.spec.containers` is an
empty list, is missing or is not a list (in each case `parseDeployment` reads a list of
length 0), `buildUpstream` returns an error and no model, whatever the other records. -/
theorem buildUpstream_no_containers_fails (L : GoLib) (rs : List rawResource)
    (d : rawResource) (hd : d ∈ rs) (hk : d.Kind = "Deployment")
    (hc : deploymentContainers d = []) :
    ∃ e, buildUpstream L rs = .error e := by
  obtain ⟨e, he⟩ := firstPass_no_containers L rs d {} [] hd hk hc
  exact ⟨e, buildUpstream_error_of_firstPass he⟩

theorem buildUpstream_no_containers_fails_witness :
    ∃ e, buildUpstream sampleLib (exampleManifest ++ [emptyDeployment]) = .error e :=
  buildUpstream_no_containers_fails sampleLib (exampleManifest ++ [emptyDeployment])
    emptyDeployment (by simp) (by decide) rfl

/-- C7, as stated, fails: the one-record list holding a ClusterRole named `a"b` without a
`rules` key makes `buildUpstream` fail at that record, with a message that prints the name
as `"a\"b"` and so does not contain the name. -/
theorem buildUpstream_role_error_name_counterexample :
    mapGet quotedNameRole.Raw "rules" = none ∧
    (∀ L : GoLib, buildUpstream L [quotedNameRole] =
      .error "parsing ClusterRole \"a\\\"b\": no rules found") ∧
    ¬ (quotedNameRole.Name.data <:+: "parsing ClusterRole \"a\\\"b\": no rules found".data) := by
  refine ⟨rfl, fun L => rfl, by decide⟩

/-- C7, amended: on a list holding a ClusterRole or Role record without a `rules` key,
`buildUpstream` returns an error and no model; when the first loop gets through the
records before it, the message is `parsing <Kind> <q>: no rules found`, where `<q>` is the
record's name as `%q` prints it, and the message contains the name itself when the name
is made of printable ASCII characters other than the double quote and the backslash. -/
theorem buildUpstream_role_without_rules_fails (L : GoLib) (rs : List rawResource)
    (r : rawResource) (hr : r ∈ rs) (hk : r.Kind = "ClusterRole" ∨ r.Kind = "Role")
    (h : mapGet r.Raw "rules" = none) :
    (∃ e, buildUpstream L rs = .error e) ∧
    (∀ pre post st, rs = pre ++ r :: post → firstPass L pre {} [] = .ok st →
      buildUpstream L rs =
        .error ("parsing " ++ r.Kind ++ " " ++ quote L r.Name ++ ": no rules found") ∧
      (plainName r.Name →
        r.Name.data <:+:
          ("parsing " ++ r.Kind ++ " " ++ quote L r.Name ++ ": no rules found").data)) := by
  constructor
  · obtain ⟨e, he⟩ := firstPass_no_rules L rs r {} [] hr hk h
    exact ⟨e, buildUpstream_error_of_firstPass he⟩
  · intro pre post st hrs hpre
    constructor
    · apply buildUpstream_error_of_firstPass
      rw [hrs, firstPass_append, hpre]
      exact firstPass_no_rules_head L r post _ _ hk h
    · intro hplain
      exact infix_of_quote_plain L _ _ r.Name hplain

theorem buildUpstream_role_without_rules_fails_witness :
    (∃ e, buildUpstream sampleLib [exampleService, ruleLessRole, exampleDeployment] = .error e) ∧
    buildUpstream sampleLib [exampleService, ruleLessRole, exampleDeployment] =
      .error "parsing Role \"keycloak-operator-role\": no rules found" ∧
    "keycloak-operator-role".data <:+:
      "parsing Role \"keycloak-operator-role\": no rules found".data :=
  ⟨(buildUpstream_role_without_rules_fails sampleLib
      [exampleService, ruleLessRole, exampleDeployment] ruleLessRole (by simp) (by decide) rfl).1,
   ((buildUpstream_role_without_rules_fails sampleLib
      [exampleService, ruleLessRole, exampleDeployment] ruleLessRole (by simp) (by decide) rfl).2
      [exampleService] [exampleDeployment] _ rfl rfl).1,
   ((buildUpstream_role_without_rules_fails sampleLib
      [exampleService, ruleLessRole, exampleDeployment] ruleLessRole (by simp) (by decide) rfl).2
      [exampleService] [exampleDeployment] _ rfl rfl).2 (by unfold plainName; decide)⟩

/-- C8: for all strings `repo` and `tag` where `tag` holds no colon,
`splitImage (repo ++ ":" ++ tag) = (repo, tag)`; `repo` is unrestricted, so a colon inside
it (a registry port) stays in the repository part. -/
theorem splitImage_repo_tag (repo tag : String) (h : ':' ∉ tag.data) :
    splitImage (repo ++ ":" ++ tag) = (repo, tag) := by
  have hd : (repo ++ ":" ++ tag).data = repo.data ++ ':' :: tag.data := by
    simp [String.data_append]
  have hi := lastIndex_append_cons ':' repo.data tag.data h
  have hne : ((repo.data.length : Nat) : Int) ≠ -1 := by omega
  simp only [splitImage, hd, hi, hne, ne_eq, not_false_eq_true, if_true, Int.toNat_ofNat,
    take_length_append_cons, drop_length_succ_append_cons]

theorem splitImage_repo_tag_witness :
    splitImage ("registry.example:5000/keycloak/keycloak-operator" ++ ":" ++ "26.0.0") =
      ("registry.example:5000/keycloak/keycloak-operator", "26.0.0") :=
  splitImage_repo_tag "registry.example:5000/keycloak/keycloak-operator" "26.0.0" (by decide)

/-- C9: for every string `ref` holding no colon, `splitImage ref = (ref, "")`. -/
theorem splitImage_no_colon (ref : String) (h : ':' ∉ ref.data) :
    splitImage ref = (ref, "") := by
  have := (lastIndex_eq_neg_one_iff ':' ref.data).mpr h
  simp [splitImage, this]

theorem splitImage_no_colon_witness :
    splitImage "quay.io/keycloak/keycloak-operator" = ("quay.io/keycloak/keycloak-operator", "") :=
  splitImage_no_colon "quay.io/keycloak/keycloak-operator" (by decide)

/-- C10: for every string `s`, `deriveSuffix ("keycloakrealmimportcontroller-" ++ s)` is
`"realmimport-" ++ s`, `deriveSuffix ("keycloakcontroller-" ++ s)` is `"keycloak-" ++ s`,
and, when `s` does not begin with `-`, `deriveSuffix ("keycloak-operator-" ++ s)` is `s`;
in particular `keycloak-operator-foo` gives `foo` and `keycloakrealmimportcontroller-bar`
gives `realmimport-bar`. -/
theorem deriveSuffix_rewrites (s : String) :
    deriveSuffix ("keycloakrealmimportcontroller-" ++ s) = "realmimport-" ++ s ∧
    deriveSuffix ("keycloakcontroller-" ++ s) = "keycloak-" ++ s ∧
    (s.data.head? ≠ some '-' → deriveSuffix ("keycloak-operator-" ++ s) = s) ∧
    deriveSuffix "keycloak-operator-foo" = "foo" ∧
    deriveSuffix "keycloakrealmimportcontroller-bar" = "realmimport-bar" := by
  refine ⟨?_, ?_, ?_, by decide, by decide⟩
  · have h1 : hasPrefix ("keycloakrealmimportcontroller-" ++ s) "keycloak-operator-" = false := by
      simp [hasPrefix, String.data_append, List.isPrefixOf]
    have h2 : hasPrefix ("realmimport-" ++ s) "-" = false := by
      simp [hasPrefix, String.data_append, List.isPrefixOf]
    simp [deriveSuffix, replacements, deriveSuffixWith, h1, hasPrefix_append, trimPrefix_append,
      trimPrefix_dash_of_not _ h2]
  · have h1 : hasPrefix ("keycloakcontroller-" ++ s) "keycloak-operator-" = false := by
      simp [hasPrefix, String.data_append, List.isPrefixOf]
    have h3 : hasPrefix ("keycloakcontroller-" ++ s) "keycloakrealmimportcontroller-" = false := by
      simp [hasPrefix, String.data_append, List.isPrefixOf]
    have h2 : hasPrefix ("keycloak-" ++ s) "-" = false := by
      simp [hasPrefix, String.data_append, List.isPrefixOf]
    simp [deriveSuffix, replacements, deriveSuffixWith, h1, h3, hasPrefix_append,
      trimPrefix_append, trimPrefix_dash_of_not _ h2]
  · intro hs
    simp [deriveSuffix, replacements, deriveSuffixWith, hasPrefix_append, trimPrefix_append,
      trimPrefix_dash_of_not _ (hasPrefix_dash_false s hs)]

theorem deriveSuffix_rewrites_witness :
    deriveSuffix ("keycloakrealmimportcontroller-" ++ "role") = "realmimport-" ++ "role" ∧
    deriveSuffix ("keycloakcontroller-" ++ "role") = "keycloak-" ++ "role" ∧
    deriveSuffix ("keycloak-operator-" ++ "role") = "role" :=
  ⟨(deriveSuffix_rewrites "role").1, (deriveSuffix_rewrites "role").2.1,
   (deriveSuffix_rewrites "role").2.2.1 (by decide)⟩

/-- C11: a name that begins with none of the prefixes `keycloak-operator-`,
`keycloakrealmimportcontroller-`, `keycloakcontroller-` is returned unchanged by
`deriveSuffix` (so `unrelated-name` is); hence, whenever `deriveSuffix x` begins with none
of them, applying `deriveSuffix` again changes nothing. -/
theorem deriveSuffix_unmatched_unchanged :
    (∀ name : String,
      hasPrefix name "keycloak-operator-" = false →
      hasPrefix name "keycloakrealmimportcontroller-" = false →
      hasPrefix name "keycloakcontroller-" = false →
      deriveSuffix name = name) ∧
    deriveSuffix "unrelated-name" = "unrelated-name" ∧
    (∀ x : String,
      hasPrefix (deriveSuffix x) "keycloak-operator-" = false →
      hasPrefix (deriveSuffix x) "keycloakrealmimportcontroller-" = false →
      hasPrefix (deriveSuffix x) "keycloakcontroller-" = false →
      deriveSuffix (deriveSuffix x) = deriveSuffix x) := by
  have key : ∀ name : String,
      hasPrefix name "keycloak-operator-" = false →
      hasPrefix name "keycloakrealmimportcontroller-" = false →
      hasPrefix name "keycloakcontroller-" = false →
      deriveSuffix name = name := by
    intro name h1 h2 h3
    apply deriveSuffix_no_prefix
    simp [beginsWithRewritePrefix, h1, h2, h3]
  exact ⟨key, by decide, fun x => key (deriveSuffix x)⟩

theorem deriveSuffix_unmatched_unchanged_witness :
    deriveSuffix "view" = "view" ∧
    deriveSuffix (deriveSuffix "keycloakcontroller-role") = deriveSuffix "keycloakcontroller-role" :=
  ⟨deriveSuffix_unmatched_unchanged.1 "view" (by decide) (by decide) (by decide),
   deriveSuffix_unmatched_unchanged.2.2 "keycloakcontroller-role" (by decide) (by decide)
     (by decide)⟩

/-- C12, as stated, fails: `keycloak-operator-keycloak-operator-foo` derives to
`keycloak-operator-foo`, which derives to `foo`. -/
theorem deriveSuffix_not_idempotent_counterexample :
    deriveSuffix "keycloak-operator-keycloak-operator-foo" = "keycloak-operator-foo" ∧
    deriveSuffix (deriveSuffix "keycloak-operator-keycloak-operator-foo") = "foo" ∧
    deriveSuffix (deriveSuffix "keycloak-operator-keycloak-operator-foo") ≠
      deriveSuffix "keycloak-operator-keycloak-operator-foo" := by
  decide

/-- C12, amended: applying `deriveSuffix` twice gives the same as applying it once exactly
for the names whose derived suffix begins with none of the three rewrite prefixes. -/
theorem deriveSuffix_idempotent_iff (name : String) :
    deriveSuffix (deriveSuffix name) = deriveSuffix name ↔
      beginsWithRewritePrefix (deriveSuffix name) = false := by
  constructor
  · intro h
    by_contra hb
    have hb1 : beginsWithRewritePrefix (deriveSuffix name) = true := by simpa using hb
    have hlt := deriveSuffix_length_lt (deriveSuffix name) hb1
    rw [h] at hlt
    exact lt_irrefl _ hlt
  · exact deriveSuffix_no_prefix (deriveSuffix name)

/-- C13, as stated, fails: `keycloak-operator---foo` begins with the first rewrite prefix
and derives to `-foo`, which begins with `-`. -/
theorem deriveSuffix_leading_dash_counterexample :
    beginsWithRewritePrefix "keycloak-operator---foo" = true ∧
    deriveSuffix "keycloak-operator---foo" = "-foo" ∧
    hasPrefix (deriveSuffix "keycloak-operator---foo") "-" = true := by
  decide

/-- C13, amended: for a name that begins with one of the three rewrite prefixes, the
suffix returned by `deriveSuffix` begins with `-` exactly when the name begins with
`keycloak-operator---`, that is, when the prefix `keycloak-operator-` is followed by two
more `-` (one leading `-` is removed, not all of them). -/
theorem deriveSuffix_leading_dash_iff (name : String)
    (h : beginsWithRewritePrefix name = true) :
    hasPrefix (deriveSuffix name) "-" = true ↔ hasPrefix name "keycloak-operator---" = true := by
  simp only [beginsWithRewritePrefix, Bool.or_eq_true] at h
  rcases h with (h | h) | h
  · obtain ⟨s, rfl⟩ := hasPrefix_elim h
    rw [deriveSuffix_operator_eq, hasPrefix_trimPrefix_dash]
  · obtain ⟨s, rfl⟩ := hasPrefix_elim h
    rw [deriveSuffix_realmimport_eq]
    simp [hasPrefix, String.data_append, List.isPrefixOf]
  · obtain ⟨s, rfl⟩ := hasPrefix_elim h
    rw [deriveSuffix_controller_eq]
    simp [hasPrefix, String.data_append, List.isPrefixOf]

theorem deriveSuffix_leading_dash_iff_witness :
    hasPrefix (deriveSuffix "keycloak-operator--foo") "-" = true ↔
      hasPrefix "keycloak-operator--foo" "keycloak-operator---" = true :=
  deriveSuffix_leading_dash_iff "keycloak-operator--foo" (by decide)

/-- C14: for the manifest of one Deployment (first container image
`quay.io/keycloak/keycloak-operator:26.0.0`, container port 8080, no probes), one Service
(`ClusterIP`, port 8080), one ClusterRole named `keycloak-operator-cluster` whose rules the
encoder can print, and one ClusterRoleBinding that refers to it, `buildUpstream` succeeds
with `AppVersion = "26.0.0"`, `OperatorImage = "quay.io/keycloak/keycloak-operator"`,
`ContainerPort = 8080`, `Service = (ClusterIP, 8080)`, three zero probes, the role's
`Suffix = "cluster"`, and a binding with `IsBuiltinRole = false` and
`RoleSuffix = "cluster"`. -/
theorem buildUpstream_reference_manifest (L : GoLib) (rules : Value) (y : String)
    (hy : L.yamlEncode rules = .ok y) :
    ∃ u, buildUpstream L (referenceManifest rules) = .ok u ∧
      u.AppVersion = "26.0.0" ∧
      u.OperatorImage = "quay.io/keycloak/keycloak-operator" ∧
      u.Deployment.ContainerPort = 8080 ∧
      u.Service = { Type_ := "ClusterIP", Port := 8080 } ∧
      u.Deployment.Probes.Liveness = {} ∧
      u.Deployment.Probes.Readiness = {} ∧
      u.Deployment.Probes.Startup = {} ∧
      u.RBAC.ClusterRoles =
        [{ OriginalName := "keycloak-operator-cluster", Suffix := "cluster",
           RulesYAML := trimRightNewlines y }] ∧
      u.RBAC.ClusterRoleBindings =
        [{ OriginalName := "keycloak-operator-cluster-binding"
           Suffix := "cluster-binding"
           RoleRefKind := "ClusterRole"
           RoleRefName := "keycloak-operator-cluster"
           RoleSuffix := "cluster"
           IsBuiltinRole := false }] ∧
      u.RBAC.Roles = [] ∧ u.RBAC.RoleBindings = [] := by
  have hrole : parseRBACRole L (clusterRoleWithRules rules) =
      .ok { OriginalName := "keycloak-operator-cluster", Suffix := "cluster",
            RulesYAML := trimRightNewlines y } := by
    show (match marshalYAML L rules with
      | .error e => Except.error ("marshaling rules: " ++ e)
      | .ok rulesYAML => Except.ok _) = _
    unfold marshalYAML
    rw [hy]
    rfl
  have h0 : firstPass L [exampleDeployment, exampleService] {} [] =
      .ok ({ AppVersion := "26.0.0"
             OperatorImage := "quay.io/keycloak/keycloak-operator"
             KeycloakImage := ""
             Deployment :=
               { Replicas := 1, ContainerName := "keycloak-operator", ContainerPort := 8080 }
             Service := { Type_ := "ClusterIP", Port := 8080 } }, []) := rfl
  have h1 : firstPass L (referenceManifest rules) {} [] =
      .ok ({ AppVersion := "26.0.0"
             OperatorImage := "quay.io/keycloak/keycloak-operator"
             KeycloakImage := ""
             Deployment :=
               { Replicas := 1, ContainerName := "keycloak-operator", ContainerPort := 8080 }
             Service := { Type_ := "ClusterIP", Port := 8080 }
             RBAC :=
               { ClusterRoles :=
                   [{ OriginalName := "keycloak-operator-cluster", Suffix := "cluster",
                      RulesYAML := trimRightNewlines y }] } },
           [("keycloak-operator-cluster", "cluster")]) := by
    show firstPass L ([exampleDeployment, exampleService] ++
      [clusterRoleWithRules rules, exampleClusterRoleBinding]) {} [] = _
    rw [firstPass_append, h0]
    simp only
    rw [firstPass_clusterRole_ok L _ _ _ _ _ rfl hrole]
    rfl
  have hb : buildUpstream L (referenceManifest rules) =
      .ok { AppVersion := "26.0.0"
            OperatorImage := "quay.io/keycloak/keycloak-operator"
            KeycloakImage := ""
            Deployment :=
              { Replicas := 1, ContainerName := "keycloak-operator", ContainerPort := 8080 }
            Service := { Type_ := "ClusterIP", Port := 8080 }
            RBAC :=
              { ClusterRoles :=
                  [{ OriginalName := "keycloak-operator-cluster", Suffix := "cluster",
                     RulesYAML := trimRightNewlines y }]
                ClusterRoleBindings := [exampleManagedBinding] } } := by
    unfold buildUpstream
    rw [h1]
    rfl
  exact ⟨_, hb, rfl, rfl, rfl, rfl, rfl, rfl, rfl, rfl, rfl, rfl, rfl⟩

theorem buildUpstream_reference_manifest_witness :
    ∃ u, buildUpstream sampleLib (referenceManifest (.seq [])) = .ok u ∧
      u.AppVersion = "26.0.0" ∧
      u.OperatorImage = "quay.io/keycloak/keycloak-operator" ∧
      u.Deployment.ContainerPort = 8080 ∧
      u.Service = { Type_ := "ClusterIP", Port := 8080 } ∧
      u.Deployment.Probes.Liveness = {} ∧
      u.Deployment.Probes.Readiness = {} ∧
      u.Deployment.Probes.Startup = {} ∧
      u.RBAC.ClusterRoles =
        [{ OriginalName := "keycloak-operator-cluster", Suffix := "cluster",
           RulesYAML := trimRightNewlines "[]\n" }] ∧
      u.RBAC.ClusterRoleBindings =
        [{ OriginalName := "keycloak-operator-cluster-binding"
           Suffix := "cluster-binding"
           RoleRefKind := "ClusterRole"
           RoleRefName := "keycloak-operator-cluster"
           RoleSuffix := "cluster"
           IsBuiltinRole := false }] ∧
      u.RBAC.Roles = [] ∧ u.RBAC.RoleBindings = [] :=
  buildUpstream_reference_manifest sampleLib (.seq []) "[]\n" rfl

/-- C15: a record whose kind is none of ClusterRole, Role, ClusterRoleBinding,
RoleBinding, Deployment, Service (an empty kind included) is ignored: put at any place in
any list, it leaves the result of `buildUpstream`, model or error, as it was. -/
theorem buildUpstream_ignores_unknown_kind (L : GoLib) (pre post : List rawResource)
    (x : rawResource)
    (h1 : x.Kind ≠ "ClusterRole") (h2 : x.Kind ≠ "Role")
    (h3 : x.Kind ≠ "ClusterRoleBinding") (h4 : x.Kind ≠ "RoleBinding")
    (h5 : x.Kind ≠ "Deployment") (h6 : x.Kind ≠ "Service") :
    buildUpstream L (pre ++ x :: post) = buildUpstream L (pre ++ post) := by
  unfold buildUpstream
  rw [firstPass_append_unknown L pre post x _ _ h1 h2 h5 h6]
  split
  · rfl
  · simp only [secondPass_append_unknown _ pre post x _ h3 h4]

theorem buildUpstream_ignores_unknown_kind_witness :
    buildUpstream sampleLib
        ([exampleClusterRoleBinding, exampleViewBinding] ++ exampleConfigMap ::
          [exampleDeployment, exampleService, exampleClusterRole]) =
      buildUpstream sampleLib
        ([exampleClusterRoleBinding, exampleViewBinding] ++
          [exampleDeployment, exampleService, exampleClusterRole]) :=
  buildUpstream_ignores_unknown_kind sampleLib [exampleClusterRoleBinding, exampleViewBinding]
    [exampleDeployment, exampleService, exampleClusterRole] exampleConfigMap
    (by decide) (by decide) (by decide) (by decide) (by decide) (by decide)

/-- C16: on a Deployment record with at least one container `parseDeployment` succeeds,
and the `ExtraEnv` it produces is the receiver's list followed by the first container's
`env` list, in its order, without the entries named `KUBERNETES_NAMESPACE` or
`RELATED_IMAGE_KEYCLOAK`, each remaining entry as its (name, value) pair; from an empty
list it is exactly that, and neither reserved name occurs among the pairs. -/
theorem parseDeployment_extraEnv (L : GoLib) (u : Upstream) (d : rawResource)
    (hc : deploymentContainers d ≠ []) :
    ∃ u1, parseDeployment L u d = .ok u1 ∧
      u1.Deployment.ExtraEnv =
        u.Deployment.ExtraEnv ++
          ((deploymentEnv d).filter (fun e =>
              decide (envName e ≠ "KUBERNETES_NAMESPACE" ∧
                envName e ≠ "RELATED_IMAGE_KEYCLOAK"))).map
            (fun e => { Name := envName e, Value := envValue e }) ∧
      (u.Deployment.ExtraEnv = [] →
        u1.Deployment.ExtraEnv =
          ((deploymentEnv d).filter (fun e =>
              decide (envName e ≠ "KUBERNETES_NAMESPACE" ∧
                envName e ≠ "RELATED_IMAGE_KEYCLOAK"))).map
            (fun e => { Name := envName e, Value := envValue e })) ∧
      (u.Deployment.ExtraEnv = [] →
        ∀ v ∈ u1.Deployment.ExtraEnv,
          v.Name ≠ "KUBERNETES_NAMESPACE" ∧ v.Name ≠ "RELATED_IMAGE_KEYCLOAK") := by
  obtain ⟨u1, h1⟩ := parseDeployment_succeeds L u d hc
  obtain ⟨u0, he, _, hu⟩ := parseDeployment_ok_env h1
  have hlist : u1.Deployment.ExtraEnv =
      u.Deployment.ExtraEnv ++
        ((deploymentEnv d).filter (fun e =>
            decide (envName e ≠ "KUBERNETES_NAMESPACE" ∧
              envName e ≠ "RELATED_IMAGE_KEYCLOAK"))).map
          (fun e => { Name := envName e, Value := envValue e }) := by
    rw [hu, foldl_envStep_extraEnv, he]
    rfl
  refine ⟨u1, h1, hlist, ?_, ?_⟩
  · intro hnil
    rw [hlist, hnil, List.nil_append]
  · intro hnil v hv
    rw [hlist, hnil, List.nil_append] at hv
    obtain ⟨e, hmem, rfl⟩ := List.mem_map.mp hv
    have := (List.mem_filter.mp hmem).2
    simpa using this

theorem parseDeployment_extraEnv_witness :
    ∃ u1, parseDeployment sampleLib {} envDeployment = .ok u1 ∧
      u1.Deployment.ExtraEnv =
        [{ Name := "QUARKUS_LOG_LEVEL", Value := "INFO" },
         { Name := "OPERATOR_MODE", Value := "cluster" }] :=
  (parseDeployment_extraEnv sampleLib {} envDeployment (by simp [deploymentContainers,
      envDeployment, mapGet, asMap, asSeq, List.lookup])).imp
    (fun _ h => ⟨h.1, h.2.2.1 rfl⟩)

/-- C17, as stated, fails: the first container of `envDeployment` has an entry named
`RELATED_IMAGE_KEYCLOAK` with the string value `quay.io/keycloak/keycloak:25.0.0`, and the
model built from that one record has `KeycloakImage = registry.example:5000/keycloak`,
taken from a later entry of the same name. -/
theorem keycloakImage_first_entry_counterexample :
    (∃ e ∈ deploymentEnv envDeployment,
      envName e = "RELATED_IMAGE_KEYCLOAK" ∧
      mapGet (asMap (some e)) "value" = some (.str "quay.io/keycloak/keycloak:25.0.0")) ∧
    (∀ L : GoLib, ∃ u, buildUpstream L [envDeployment] = .ok u ∧
      u.KeycloakImage = "registry.example:5000/keycloak") ∧
    (splitImage "quay.io/keycloak/keycloak:25.0.0").1 = "quay.io/keycloak/keycloak" ∧
    "registry.example:5000/keycloak" ≠ (splitImage "quay.io/keycloak/keycloak:25.0.0").1 := by
  refine ⟨⟨.map [("name", .str "RELATED_IMAGE_KEYCLOAK"),
      ("value", .str "quay.io/keycloak/keycloak:25.0.0")], ?_, rfl, rfl⟩,
    fun L => ⟨_, rfl, rfl⟩, by decide, by decide⟩
  simp [deploymentEnv, deploymentContainers, envDeployment, mapGet, asMap, asSeq, List.lookup]

/-- C17, amended: when the input holds exactly one Deployment record and the last entry
named `RELATED_IMAGE_KEYCLOAK` in its first container's `env` has the string value `v`,
the `KeycloakImage` of the model is the repository part of `splitImage v`; for
`v = repo ++ ":" ++ tag` with no colon in `tag` it is `repo`. -/
theorem buildUpstream_keycloakImage (L : GoLib) (rs : List rawResource) (d : rawResource)
    (u : Upstream) (pre post : List Value) (e : Value) (v : String)
    (hone : rs.filter (fun r => decide (r.Kind = "Deployment")) = [d])
    (hb : buildUpstream L rs = .ok u)
    (henv : deploymentEnv d = pre ++ e :: post)
    (hname : envName e = "RELATED_IMAGE_KEYCLOAK")
    (hval : mapGet (asMap (some e)) "value" = some (.str v))
    (hlast : ∀ x ∈ post, envName x ≠ "RELATED_IMAGE_KEYCLOAK") :
    u.KeycloakImage = (splitImage v).1 ∧
    (∀ repo tag : String, v = repo ++ ":" ++ tag → ':' ∉ tag.data → u.KeycloakImage = repo) := by
  obtain ⟨u1, m, hfp, rfl, _⟩ := buildUpstream_ok hb
  obtain ⟨ua, ub, hdep, himg⟩ := firstPass_one_deployment_image rs d hone hfp
  obtain ⟨u0, _, _, hu⟩ := parseDeployment_ok_env hdep
  have hv : envValue e = v := by
    unfold envValue
    rw [hval]
    rfl
  have hk : (secondPass m rs u1).KeycloakImage = (splitImage v).1 := by
    rw [secondPass_eq]
    show u1.KeycloakImage = _
    rw [himg, hu, henv, foldl_envStep_last_image pre post e u0 hname hlast, hv]
  refine ⟨hk, ?_⟩
  intro repo tag hrt htag
  rw [hk, hrt]
  have hd : (repo ++ ":" ++ tag).data = repo.data ++ ':' :: tag.data := by
    simp [String.data_append]
  have hi := lastIndex_append_cons ':' repo.data tag.data htag
  have hne : ((repo.data.length : Nat) : Int) ≠ -1 := by omega
  simp only [splitImage, hd, hi, hne, ne_eq, not_false_eq_true, if_true, Int.toNat_ofNat,
    take_length_append_cons]

theorem buildUpstream_keycloakImage_witness :
    ∃ u, buildUpstream sampleLib [exampleService, envDeployment] = .ok u ∧
      u.KeycloakImage = (splitImage "registry.example:5000/keycloak:26.0.0").1 ∧
      u.KeycloakImage = "registry.example:5000/keycloak" :=
  ⟨_, rfl,
    (buildUpstream_keycloakImage sampleLib [exampleService, envDeployment] envDeployment _
      [.map [("name", .str "KUBERNETES_NAMESPACE")],
       .map [("name", .str "RELATED_IMAGE_KEYCLOAK"),
             ("value", .str "quay.io/keycloak/keycloak:25.0.0")],
       .map [("name", .str "QUARKUS_LOG_LEVEL"), ("value", .str "INFO")]]
      [.map [("name", .str "OPERATOR_MODE"), ("value", .str "cluster")]]
      (.map [("name", .str "RELATED_IMAGE_KEYCLOAK"),
             ("value", .str "registry.example:5000/keycloak:26.0.0")])
      "registry.example:5000/keycloak:26.0.0" rfl rfl rfl rfl rfl (by decide)).1,
    (buildUpstream_keycloakImage sampleLib [exampleService, envDeployment] envDeployment _
      [.map [("name", .str "KUBERNETES_NAMESPACE")],
       .map [("name", .str "RELATED_IMAGE_KEYCLOAK"),
             ("value", .str "quay.io/keycloak/keycloak:25.0.0")],
       .map [("name", .str "QUARKUS_LOG_LEVEL"), ("value", .str "INFO")]]
      [.map [("name", .str "OPERATOR_MODE"), ("value", .str "cluster")]]
      (.map [("name", .str "RELATED_IMAGE_KEYCLOAK"),
             ("value", .str "registry.example:5000/keycloak:26.0.0")])
      "registry.example:5000/keycloak:26.0.0" rfl rfl rfl rfl rfl (by decide)).2
      "registry.example:5000/keycloak" "26.0.0" rfl (by decide)⟩

/-- C18: for every column count `n` and text `s`, the lines of `indent n s` are the lines
of `s`, one for one: a line that is empty in `s` is empty in the result, and every other
line is the line of `s` with exactly `n` spaces put in front; so both texts have the same
number of lines. -/
theorem indent_lines (n : Nat) (s : String) :
    split (indent n s) '\n' =
      (split s '\n').map
        (fun line => if line = "" then "" else ⟨List.replicate n ' ' ++ line.data⟩) ∧
    (split (indent n s) '\n').length = (split s '\n').length := by
  have hmap : (split s '\n').map
        (fun line => if line ≠ "" then repeatString " " n ++ line else line) =
      (split s '\n').map
        (fun line => if line = "" then "" else ⟨List.replicate n ' ' ++ line.data⟩) :=
    List.map_congr_left (fun line _ => indent_line_eq n line)
  have hsplit : split (indent n s) '\n' =
      (split s '\n').map
        (fun line => if line = "" then "" else ⟨List.replicate n ' ' ++ line.data⟩) := by
    unfold indent
    simp only
    rw [hmap]
    apply split_join
    · simpa using split_ne_nil s '\n'
    · intro l hl
      obtain ⟨line, hline, rfl⟩ := List.mem_map.mp hl
      have hno := split_no_sep s '\n' line hline
      split_ifs
      · simp
      · simpa using hno
  exact ⟨hsplit, by rw [hsplit, List.length_map]⟩

/-- C19: each of the four repeated-block templates, executed on a model whose list has
`n ≥ 1` entries, writes a newline, the documents of the entries joined by the separator
line `---` (so the separator stands right before the document of every entry after the
first, not before the first, `n - 1` times in all), and a final newline. -/
theorem repeated_blocks_separated (u : Upstream) :
    (u.RBAC.ClusterRoles ≠ [] →
      renderClusterRoleTmpl u =
        "\n" ++ join (u.RBAC.ClusterRoles.map clusterRoleBlock) "\n---\n" ++ "\n") ∧
    (u.RBAC.ClusterRoleBindings ≠ [] →
      renderClusterRoleBindingTmpl u =
        "\n" ++ join (u.RBAC.ClusterRoleBindings.map clusterRoleBindingBlock) "\n---\n" ++
          "\n") ∧
    (u.RBAC.Roles ≠ [] →
      renderRoleTmpl u = "\n" ++ join (u.RBAC.Roles.map roleBlock) "\n---\n" ++ "\n") ∧
    (u.RBAC.RoleBindings ≠ [] →
      renderRoleBindingTmpl u =
        "\n" ++ join (u.RBAC.RoleBindings.map roleBindingBlock) "\n---\n" ++ "\n") := by
  refine ⟨?_, ?_, ?_, ?_⟩
  · intro hne
    cases hl : u.RBAC.ClusterRoles with
    | nil => exact absurd hl hne
    | cons x0 rest => exact renderClusterRoleTmpl_eq u x0 rest hl
  · intro hne
    cases hl : u.RBAC.ClusterRoleBindings with
    | nil => exact absurd hl hne
    | cons x0 rest => exact renderClusterRoleBindingTmpl_eq u x0 rest hl
  · intro hne
    cases hl : u.RBAC.Roles with
    | nil => exact absurd hl hne
    | cons x0 rest => exact renderRoleTmpl_eq u x0 rest hl
  · intro hne
    cases hl : u.RBAC.RoleBindings with
    | nil => exact absurd hl hne
    | cons x0 rest => exact renderRoleBindingTmpl_eq u x0 rest hl

set_option maxRecDepth 100000 in
theorem repeated_blocks_separated_witness :
    renderRoleTmpl exampleRBACModel =
      "\napiVersion: rbac.authorization.k8s.io/v1\nkind: Role\nmetadata:\n  name: \x7b\x7b include \"keycloak-operator.fullname\" . \x7d\x7d-role\n  labels:\n    \x7b\x7b- include \"keycloak-operator.labels\" . | nindent 4 \x7d\x7d\nrules:\n  - apiGroups:\n    - apps\n\n    resources:\n    - deployments\n---\napiVersion: rbac.authorization.k8s.io/v1\nkind: Role\nmetadata:\n  name: \x7b\x7b include \"keycloak-operator.fullname\" . \x7d\x7d-keycloak-role\n  labels:\n    \x7b\x7b- include \"keycloak-operator.labels\" . | nindent 4 \x7d\x7d\nrules:\n  []\n" :=
  (repeated_blocks_separated exampleRBACModel).2.2.1 (by decide)

/-- C20: the rendered binding files repeat the decision taken at extraction.  Both files
are the documents of their bindings joined by separator lines; in the document of every
binding the line between the `apiGroup` line of `roleRef` and `subjects:` is `  name: `
followed by `RoleRefName` when `IsBuiltinRole` is true, and otherwise `  name: `, the
Helm fullname expression, `-` and the binding's `RoleSuffix`; and in a model returned by
`buildUpstream`, for a binding that is not builtin, the document of every role with the
referenced name has as its metadata name line that same line, made from the role's
`Suffix`. -/
theorem rendered_roleRef_name_line (L : GoLib) (rs : List rawResource) (u : Upstream)
    (h : buildUpstream L rs = .ok u) :
    (u.RBAC.ClusterRoleBindings ≠ [] →
      renderClusterRoleBindingTmpl u =
        "\n" ++ join (u.RBAC.ClusterRoleBindings.map clusterRoleBindingBlock) "\n---\n" ++
          "\n") ∧
    (u.RBAC.RoleBindings ≠ [] →
      renderRoleBindingTmpl u =
        "\n" ++ join (u.RBAC.RoleBindings.map roleBindingBlock) "\n---\n" ++ "\n") ∧
    (∀ b : RBACBinding, ∃ pre post,
      clusterRoleBindingBlock b =
        pre ++ "\n  apiGroup: rbac.authorization.k8s.io\n" ++
          (if b.IsBuiltinRole then "  name: " ++ b.RoleRefName
           else "  name: \x7b\x7b include \"keycloak-operator.fullname\" . \x7d\x7d-" ++
             b.RoleSuffix) ++
          "\nsubjects:\n" ++ post) ∧
    (∀ b : RBACBinding, ∃ pre post,
      roleBindingBlock b =
        pre ++ "\n  apiGroup: rbac.authorization.k8s.io\n" ++
          (if b.IsBuiltinRole then "  name: " ++ b.RoleRefName
           else "  name: \x7b\x7b include \"keycloak-operator.fullname\" . \x7d\x7d-" ++
             b.RoleSuffix) ++
          "\nsubjects:\n" ++ post) ∧
    (∀ b, (b ∈ u.RBAC.ClusterRoleBindings ∨ b ∈ u.RBAC.RoleBindings) →
      b.IsBuiltinRole = false →
      ∀ role, role.OriginalName = b.RoleRefName →
        (role ∈ u.RBAC.ClusterRoles → ∃ post,
          clusterRoleBlock role =
            "apiVersion: rbac.authorization.k8s.io/v1\nkind: ClusterRole\nmetadata:\n" ++
              ("  name: \x7b\x7b include \"keycloak-operator.fullname\" . \x7d\x7d-" ++
                b.RoleSuffix) ++ "\n" ++ post) ∧
        (role ∈ u.RBAC.Roles → ∃ post,
          roleBlock role =
            "apiVersion: rbac.authorization.k8s.io/v1\nkind: Role\nmetadata:\n" ++
              ("  name: \x7b\x7b include \"keycloak-operator.fullname\" . \x7d\x7d-" ++
                b.RoleSuffix) ++ "\n" ++ post)) := by
  refine ⟨?_, ?_, ?_, ?_, ?_⟩
  · intro hne
    cases hl : u.RBAC.ClusterRoleBindings with
    | nil => exact absurd hl hne
    | cons x0 rest => exact renderClusterRoleBindingTmpl_eq u x0 rest hl
  · intro hne
    cases hl : u.RBAC.RoleBindings with
    | nil => exact absurd hl hne
    | cons x0 rest => exact renderRoleBindingTmpl_eq u x0 rest hl
  · intro b
    refine ⟨"apiVersion: rbac.authorization.k8s.io/v1\nkind: ClusterRoleBinding\nmetadata:\n" ++
      fullnameLine b.Suffix ++
      "\n  labels:\n    \x7b\x7b- include \"keycloak-operator.labels\" . | nindent 4 \x7d\x7d\nroleRef:\n  kind: " ++
      b.RoleRefKind,
      "  - kind: ServiceAccount\n    name: \x7b\x7b include \"keycloak-operator.serviceAccountName\" . \x7d\x7d\n    namespace: \x7b\x7b .Release.Namespace \x7d\x7d",
      ?_⟩
    simp only [clusterRoleBindingBlock, roleRefNameLine, fullnameLine]
    apply String.ext
    simp only [String.data_append, List.append_assoc]
    rfl
  · intro b
    refine ⟨"apiVersion: rbac.authorization.k8s.io/v1\nkind: RoleBinding\nmetadata:\n" ++
      fullnameLine b.Suffix ++
      "\n  labels:\n    \x7b\x7b- include \"keycloak-operator.labels\" . | nindent 4 \x7d\x7d\nroleRef:\n  kind: " ++
      roleBindingKindText b,
      "  - kind: ServiceAccount\n    name: \x7b\x7b include \"keycloak-operator.serviceAccountName\" . \x7d\x7d",
      ?_⟩
    simp only [roleBindingBlock, roleRefNameLine, fullnameLine]
    apply String.ext
    simp only [String.data_append, List.append_assoc]
    rfl
  · intro b hb hm role hn
    constructor
    · intro hr
      have hs := buildUpstream_managed_suffix h b hb hm role (Or.inl hr) hn
      refine ⟨"  labels:\n    \x7b\x7b- include \"keycloak-operator.labels\" . | nindent 4 \x7d\x7d\nrules:\n" ++
        indent 2 role.RulesYAML, ?_⟩
      simp only [clusterRoleBlock, fullnameLine, hs]
      apply String.ext
      simp only [String.data_append, List.append_assoc]
      rfl
    · intro hr
      have hs := buildUpstream_managed_suffix h b hb hm role (Or.inr hr) hn
      refine ⟨"  labels:\n    \x7b\x7b- include \"keycloak-operator.labels\" . | nindent 4 \x7d\x7d\nrules:\n" ++
        indent 2 role.RulesYAML, ?_⟩
      simp only [roleBlock, fullnameLine, hs]
      apply String.ext
      simp only [String.data_append, List.append_assoc]
      rfl

set_option maxRecDepth 100000 in
theorem rendered_roleRef_name_line_witness :
    renderClusterRoleBindingTmpl exampleUpstream =
      "\napiVersion: rbac.authorization.k8s.io/v1\nkind: ClusterRoleBinding\nmetadata:\n  name: \x7b\x7b include \"keycloak-operator.fullname\" . \x7d\x7d-cluster-binding\n  labels:\n    \x7b\x7b- include \"keycloak-operator.labels\" . | nindent 4 \x7d\x7d\nroleRef:\n  kind: ClusterRole\n  apiGroup: rbac.authorization.k8s.io\n  name: \x7b\x7b include \"keycloak-operator.fullname\" . \x7d\x7d-cluster\nsubjects:\n  - kind: ServiceAccount\n    name: \x7b\x7b include \"keycloak-operator.serviceAccountName\" . \x7d\x7d\n    namespace: \x7b\x7b .Release.Namespace \x7d\x7d\n" ∧
    renderRoleBindingTmpl exampleUpstream =
      "\napiVersion: rbac.authorization.k8s.io/v1\nkind: RoleBinding\nmetadata:\n  name: \x7b\x7b include \"keycloak-operator.fullname\" . \x7d\x7d-view\n  labels:\n    \x7b\x7b- include \"keycloak-operator.labels\" . | nindent 4 \x7d\x7d\nroleRef:\n  kind: ClusterRole\n  apiGroup: rbac.authorization.k8s.io\n  name: view\nsubjects:\n  - kind: ServiceAccount\n    name: \x7b\x7b include \"keycloak-operator.serviceAccountName\" . \x7d\x7d\n" ∧
    (∃ post,
      clusterRoleBlock
          { OriginalName := "keycloak-operator-cluster", Suffix := "cluster", RulesYAML := "[]" } =
        "apiVersion: rbac.authorization.k8s.io/v1\nkind: ClusterRole\nmetadata:\n" ++
          ("  name: \x7b\x7b include \"keycloak-operator.fullname\" . \x7d\x7d-" ++
            exampleManagedBinding.RoleSuffix) ++ "\n" ++ post) :=
  ⟨(rendered_roleRef_name_line sampleLib exampleManifest exampleUpstream
      exampleManifest_build).1 (by decide),
   (rendered_roleRef_name_line sampleLib exampleManifest exampleUpstream
      exampleManifest_build).2.1 (by decide),
   ((rendered_roleRef_name_line sampleLib exampleManifest exampleUpstream
      exampleManifest_build).2.2.2.2 exampleManagedBinding (Or.inl (by decide)) rfl
      { OriginalName := "keycloak-operator-cluster", Suffix := "cluster", RulesYAML := "[]" }
      rfl).1 (by decide)⟩

/-- C21: no string begins with two of the prefixes `keycloak-operator-`,
`keycloakrealmimportcontroller-`, `keycloakcontroller-`; hence the loop of `deriveSuffix`
run over any reordering of the rule table returns what `deriveSuffix` returns. -/
theorem deriveSuffix_rule_order_irrelevant :
    (∀ name : String,
      ¬ (hasPrefix name "keycloak-operator-" = true ∧
          hasPrefix name "keycloakrealmimportcontroller-" = true) ∧
      ¬ (hasPrefix name "keycloak-operator-" = true ∧
          hasPrefix name "keycloakcontroller-" = true) ∧
      ¬ (hasPrefix name "keycloakrealmimportcontroller-" = true ∧
          hasPrefix name "keycloakcontroller-" = true)) ∧
    (∀ table : List (String × String), table.Perm replacements →
      ∀ name : String, deriveSuffixWith table name = deriveSuffix name) := by
  constructor
  · intro name
    refine ⟨?_, ?_, ?_⟩
    · rintro ⟨h1, h2⟩
      have := replacements_exclusive name ("keycloak-operator-", "")
        ("keycloakrealmimportcontroller-", "realmimport-") (by simp [replacements])
        (by simp [replacements]) h1 h2
      simp at this
    · rintro ⟨h1, h2⟩
      have := replacements_exclusive name ("keycloak-operator-", "")
        ("keycloakcontroller-", "keycloak-") (by simp [replacements])
        (by simp [replacements]) h1 h2
      simp at this
    · rintro ⟨h1, h2⟩
      have := replacements_exclusive name ("keycloakrealmimportcontroller-", "realmimport-")
        ("keycloakcontroller-", "keycloak-") (by simp [replacements])
        (by simp [replacements]) h1 h2
      simp at this
  · intro table hp name
    unfold deriveSuffix
    by_cases hex : ∃ r ∈ replacements, hasPrefix name r.1 = true
    · obtain ⟨r, hr, hm⟩ := hex
      have hu : ∀ x ∈ replacements, hasPrefix name x.1 = true → x = r :=
        fun x hx hxm => replacements_exclusive name x r hx hr hxm hm
      rw [deriveSuffixWith_unique_match replacements name r hr hm hu,
        deriveSuffixWith_unique_match table name r (hp.mem_iff.mpr hr) hm
          (fun x hx => hu x (hp.mem_iff.mp hx))]
    · have hno : ∀ r ∈ replacements, hasPrefix name r.1 = false := by
        intro r hr
        by_contra hc
        exact hex ⟨r, hr, by simpa using hc⟩
      rw [deriveSuffixWith_no_match replacements name hno,
        deriveSuffixWith_no_match table name (fun r hr => hno r (hp.mem_iff.mp hr))]

theorem deriveSuffix_rule_order_irrelevant_witness :
    deriveSuffixWith replacements.reverse "keycloakcontroller-role" =
      deriveSuffix "keycloakcontroller-role" :=
  deriveSuffix_rule_order_irrelevant.2 replacements.reverse
    (List.reverse_perm replacements) "keycloakcontroller-role"

/-- C22: for every string `ref` that holds a colon, with `(repo, tag) = splitImage ref`,
`repo ++ ":" ++ tag = ref` and `tag` holds no colon. -/
theorem splitImage_roundtrip (ref : String) (h : ':' ∈ ref.data) :
    (splitImage ref).1 ++ ":" ++ (splitImage ref).2 = ref ∧
    ':' ∉ (splitImage ref).2.data := by
  obtain ⟨a, t, hl, ht⟩ := exists_last_occurrence ':' ref.data h
  have hi : lastIndex ':' ref.data = a.length := by
    rw [hl]
    exact lastIndex_append_cons ':' a t ht
  have hne : ((a.length : Nat) : Int) ≠ -1 := by omega
  have hs : splitImage ref = (⟨a⟩, ⟨t⟩) := by
    simp only [splitImage, hi, hne, ne_eq, not_false_eq_true, if_true, Int.toNat_ofNat]
    rw [hl, take_length_append_cons, drop_length_succ_append_cons]
  rw [hs]
  constructor
  · apply String.ext
    simp only [String.data_append, List.append_assoc, hl]
    rfl
  · exact ht

theorem splitImage_roundtrip_witness :
    (splitImage "registry.example:5000/keycloak/keycloak-operator:26.0.0").1 ++ ":" ++
        (splitImage "registry.example:5000/keycloak/keycloak-operator:26.0.0").2 =
      "registry.example:5000/keycloak/keycloak-operator:26.0.0" ∧
    ':' ∉ (splitImage "registry.example:5000/keycloak/keycloak-operator:26.0.0").2.data :=
  splitImage_roundtrip "registry.example:5000/keycloak/keycloak-operator:26.0.0" (by decide)

/-- C23: the indent helper composes additively and has an identity: for all column counts
`m`, `n` and every text `s`, `indent m (indent n s) = indent (m + n) s`, and
`indent 0 s = s`. -/
theorem indent_add_and_zero (m n : Nat) (s : String) :
    indent m (indent n s) = indent (m + n) s ∧ indent 0 s = s := by
  constructor
  · have h1 : indent m (indent n s) =
        join ((split (indent n s) '\n').map
          (fun line => if line ≠ "" then repeatString " " m ++ line else line)) "\n" := rfl
    have h2 : indent (m + n) s =
        join ((split s '\n').map
          (fun line => if line ≠ "" then repeatString " " (m + n) ++ line else line)) "\n" :=
      rfl
    rw [h1, h2, split_indent, List.map_map]
    congr 1
    apply List.map_congr_left
    intro line _
    exact indent_line_twice m n line
  · have h0 : indent 0 s =
        join ((split s '\n').map
          (fun line => if line ≠ "" then repeatString " " 0 ++ line else line)) "\n" := rfl
    have hid : (split s '\n').map
          (fun line => if line ≠ "" then repeatString " " 0 ++ line else line) =
        split s '\n' := by
      conv_rhs => rw [← List.map_id (split s '\n')]
      apply List.map_congr_left
      intro line _
      by_cases h : line = ""
      · simp [h]
      · simp only [ne_eq, h, not_false_eq_true, if_true, repeatString, id]
        exact String.empty_append _
    rw [h0, hid, join_split]

end Chart
